import Mathlib

/-!
Verification development for the engine262-style execution kernel slice:
the `Set.prototype` built-ins (src/intrinsics/SetPrototype.mts), the
error-message catalog (the unnamed messages module), and the two
Intl.DateTimeFormat bootstrap variants (the two unnamed intl modules).

The guest language's values, completion records and the Set methods are
shallowly embedded below.  Pure JS functions become Lean functions; the
mutation of a Set's internal [[SetData]] list is threaded explicitly as
state; the possibly non-terminating `for..of` loop of `forEach` (a callback
may keep growing the storage) takes a fuel argument and returns `none` on
fuel exhaustion.
-/

set_option maxHeartbeats 1000000

/-- Guest numbers.  Only the distinctions the kernel observes are kept:
NaN, negative zero, and other (rational-valued) numbers; `num 0` is +0. -/
inductive JSNum where
  | nan : JSNum
  | negZero : JSNum
  | num : ℚ → JSNum
deriving DecidableEq

/-- Guest values: the closed tagged union of the data model.  Objects and
symbols are identified by reference number. -/
inductive JSValue where
  | undef : JSValue
  | null : JSValue
  | bool : Bool → JSValue
  | number : JSNum → JSValue
  | str : String → JSValue
  | sym : ℕ → JSValue
  | obj : ℕ → JSValue
deriving DecidableEq

/-- Payload of a Throw completion: either an arbitrary guest value thrown by
guest code, or an engine-constructed error object, recorded as its error
kind identifier, message-template name and positional arguments (the error
catalog boundary of the spec). -/
inductive ThrowPayload where
  | val : JSValue → ThrowPayload
  | err : String → String → List JSValue → ThrowPayload
deriving DecidableEq

/-- Completion records: `normal` carries a successful value, the other four
variants are abrupt. -/
inductive Completion (α : Type) where
  | normal : α → Completion α
  | thrown : ThrowPayload → Completion α
  | ret : JSValue → Completion α
  | brk : Option String → Completion α
  | cont : Option String → Completion α
deriving DecidableEq

/-- The `Q(...)` / ReturnIfAbrupt combinator of completion.mjs (spec section
4.1, propagate-if-abrupt): an abrupt completion short-circuits unchanged. -/
def Completion.bind {α β : Type} : Completion α → (α → Completion β) → Completion β
  | .normal a, k => k a
  | .thrown e, _ => .thrown e
  | .ret v, _ => .ret v
  | .brk l, _ => .brk l
  | .cont l, _ => .cont l

def Completion.map {α β : Type} (f : α → β) : Completion α → Completion β
  | .normal a => .normal (f a)
  | .thrown e => .thrown e
  | .ret v => .ret v
  | .brk l => .brk l
  | .cont l => .cont l

def Completion.isAbrupt {α : Type} : Completion α → Bool
  | .normal _ => false
  | _ => true

/-- Modelled from the spec (section 4.2): SameValueZero on numbers — NaN
equals NaN, −0 equals +0, other numbers by numeric value.  (The helper
itself lives in abstract-ops, outside the given slice.) -/
def numSameValueZero : JSNum → JSNum → Bool
  | .nan, .nan => true
  | .negZero, .negZero => true
  | .negZero, .num q => decide (q = 0)
  | .num q, .negZero => decide (q = 0)
  | .num q, .num r => decide (q = r)
  | .nan, .negZero => false
  | .nan, .num _ => false
  | .negZero, .nan => false
  | .num _, .nan => false

/-- Modelled from the spec (section 4.2): SameValueZero — type-tagged
equality, with numbers compared by `numSameValueZero` and every other type
by identity or structural value. -/
def SameValueZero : JSValue → JSValue → Bool
  | .undef, .undef => true
  | .null, .null => true
  | .bool a, .bool b => a == b
  | .number a, .number b => numSameValueZero a b
  | .str a, .str b => a == b
  | .sym a, .sym b => a == b
  | .obj a, .obj b => a == b
  | _, _ => false

/-- A Set's [[SetData]] internal slot: an insertion-ordered list of element
slots where `none` is an empty slot (a hole left by delete/clear). -/
abbrev SetStorage := List (Option JSValue)

/-- A receiver for a Set.prototype method: the `this` value together with
its [[SetData]] slot (`none` when the receiver does not carry the slot). -/
structure SReceiver where
  val : JSValue
  setData : Option SetStorage
deriving DecidableEq

/-- Modelled from the spec (section 6, brand/slot boundary):
`RequireInternalSlot(S, [[SetData]])` — a receiver missing the slot fails
with the fixed InternalSlotMissing error parameterized by the receiver and
the slot name (messages module, `InternalSlotMissing`). -/
def RequireInternalSlot (S : SReceiver) : Completion SetStorage :=
  match S.setData with
  | some entries => .normal entries
  | none => .thrown (.err "TypeError" "InternalSlotMissing" [S.val, .str "SetData"])

/-- The scan predicate of add/delete/has: a slot is non-empty and its
element is SameValueZero-equal to the argument. -/
def slotMatches (value : JSValue) : Option JSValue → Bool
  | some x => SameValueZero x value
  | none => false

/-- Step 5 of SetProto_add: if value is −0, set value to +0. -/
def canonicalizeForSet (value : JSValue) : JSValue :=
  if value = .number .negZero then .number (.num 0) else value

/-- SetPrototype.mts `SetProto_add`: brand-check, scan the entries for a
SameValueZero match (returning the receiver unchanged if found),
canonicalize −0 to +0, append. -/
def SetProto_add (value : JSValue) (S : SReceiver) : Completion JSValue × SReceiver :=
  match RequireInternalSlot S with
  | .normal entries =>
    if entries.any (slotMatches value) then (.normal S.val, S)
    else (.normal S.val, { S with setData := some (entries ++ [some (canonicalizeForSet value)]) })
  | .thrown e => (.thrown e, S)
  | .ret v => (.ret v, S)
  | .brk l => (.brk l, S)
  | .cont l => (.cont l, S)

/-- SetPrototype.mts `SetProto_clear`: brand-check, then replace every slot
of the entries list with an empty slot (the list keeps its length). -/
def SetProto_clear (S : SReceiver) : Completion JSValue × SReceiver :=
  match RequireInternalSlot S with
  | .normal entries => (.normal .undef, { S with setData := some (entries.map fun _ => none) })
  | .thrown e => (.thrown e, S)
  | .ret v => (.ret v, S)
  | .brk l => (.brk l, S)
  | .cont l => (.cont l, S)

/-- The scan loop of SetProto_delete: replace the first non-empty
SameValueZero-matching slot with a hole; `none` when no slot matches. -/
def deleteLoop (value : JSValue) : SetStorage → Option SetStorage
  | [] => none
  | e :: rest =>
    if slotMatches value e then some (none :: rest)
    else (deleteLoop value rest).map fun r => e :: r

/-- SetPrototype.mts `SetProto_delete`: brand-check, then scan and hole out
the first match, returning true; false (storage untouched) otherwise. -/
def SetProto_delete (value : JSValue) (S : SReceiver) : Completion JSValue × SReceiver :=
  match RequireInternalSlot S with
  | .normal entries =>
    match deleteLoop value entries with
    | some entries2 => (.normal (.bool true), { S with setData := some entries2 })
    | none => (.normal (.bool false), S)
  | .thrown e => (.thrown e, S)
  | .ret v => (.ret v, S)
  | .brk l => (.brk l, S)
  | .cont l => (.cont l, S)

/-- SetPrototype.mts `SetProto_has`: brand-check, then scan. -/
def SetProto_has (value : JSValue) (S : SReceiver) : Completion JSValue :=
  match RequireInternalSlot S with
  | .normal entries => .normal (.bool (entries.any (slotMatches value)))
  | .thrown e => .thrown e
  | .ret v => .ret v
  | .brk l => .brk l
  | .cont l => .cont l

/-- SetPrototype.mts `SetProto_sizeGetter`: brand-check, then count the
non-empty slots on each read. -/
def SetProto_sizeGetter (S : SReceiver) : Completion JSValue :=
  match RequireInternalSlot S with
  | .normal entries => .normal (.number (.num ((entries.countP fun e => e.isSome : ℕ) : ℚ)))
  | .thrown e => .thrown e
  | .ret v => .ret v
  | .brk l => .brk l
  | .cont l => .cont l

/-- A callback as observed by forEach: `Call(callbackfn, thisArg, [e, e, S])`
returns a completion and may mutate the receiver's storage (through
re-entrant calls into the Set methods); the storage before/after the call
is threaded explicitly. -/
def Callback := JSValue → SetStorage → Completion JSValue × SetStorage

/-- Ghost trace entry for one callback invocation of forEach: the slot
index, the element passed, the storage at the moment of the call, and the
completion the call returned. -/
structure ForEachVisit where
  idx : ℕ
  elem : JSValue
  stBefore : SetStorage
  res : Completion JSValue
deriving DecidableEq

/-- The `for (const e of entries)` loop of SetProto_forEach.  JS array
iteration re-reads the current length at every step and reads
`entries[i]` live, so holes punched by the callback are observed and
appended elements are reached; the index advances by one per step.  An
abrupt callback completion is returned immediately (the `Q(Call(...))` on
the call site).  `fuel` bounds the number of steps (the source loop need
not terminate when the callback keeps appending): `none` means the fuel ran
out. -/
def forEachLoop (f : Callback) : ℕ → ℕ → SetStorage → Option (Completion JSValue × SetStorage × List ForEachVisit)
  | 0, _, _ => none
  | fuel + 1, i, entries =>
    if h : i < entries.length then
      match entries.get ⟨i, h⟩ with
      | none => forEachLoop f fuel (i + 1) entries
      | some e =>
        match f e entries with
        | (.normal v, entries2) =>
          match forEachLoop f fuel (i + 1) entries2 with
          | some (c, s, vis) => some (c, s, ⟨i, e, entries, .normal v⟩ :: vis)
          | none => none
        | (c, entries2) => some (c, entries2, [⟨i, e, entries, c⟩])
    else some (.normal .undef, entries, [])

/-- The callbackfn argument of forEach: either a non-callable guest value
(IsCallable false) or a callable with its observable behavior. -/
inductive CallbackArg where
  | notCallable : JSValue → CallbackArg
  | callable : Callback → CallbackArg

/-- SetPrototype.mts `SetProto_forEach`: brand-check, IsCallable check
(throwing the NotAFunction TypeError), then the live iteration.  Returns
the completion, the updated receiver, and the ghost invocation trace. -/
def SetProto_forEach (callbackfn : CallbackArg) (S : SReceiver) (fuel : ℕ) :
    Option (Completion JSValue × SReceiver × List ForEachVisit) :=
  match RequireInternalSlot S with
  | .normal entries =>
    match callbackfn with
    | .notCallable v => some (.thrown (.err "TypeError" "NotAFunction" [v]), S, [])
    | .callable f =>
      match forEachLoop f fuel 0 entries with
      | some (c, s, vis) => some (c, { S with setData := some s }, vis)
      | none => none
  | .thrown e => some (.thrown e, S, [])
  | .ret v => some (.ret v, S, [])
  | .brk l => some (.brk l, S, [])
  | .cont l => some (.cont l, S, [])

/-- One mutation of a Set's storage through the Set.prototype API (the only
code that touches [[SetData]]). -/
inductive SetStep : SetStorage → SetStorage → Prop
  | add (v : JSValue) (s s2 : SetStorage) :
      (SetProto_add v ⟨.undef, some s⟩).2.setData = some s2 → SetStep s s2
  | del (v : JSValue) (s s2 : SetStorage) :
      (SetProto_delete v ⟨.undef, some s⟩).2.setData = some s2 → SetStep s s2
  | clr (s s2 : SetStorage) :
      (SetProto_clear ⟨.undef, some s⟩).2.setData = some s2 → SetStep s s2

/-- Storages reachable from a freshly created (empty) Set by the API. -/
inductive ReachableStorage : SetStorage → Prop
  | empty : ReachableStorage []
  | step (s s2 : SetStorage) : ReachableStorage s → SetStep s s2 → ReachableStorage s2

/-- No two non-empty slots hold SameValueZero-equal elements. -/
def DistinctLive (s : SetStorage) : Prop :=
  List.Pairwise (fun a b => ∀ x y, a = some x → b = some y → SameValueZero x y = false) s

/-- Outcome of a synchronous host call: a host value or a thrown host-native
error, recorded as its `name` and `message` strings. -/
inductive HostResult (α : Type) where
  | ok : α → HostResult α
  | threw : String → String → HostResult α

/-- Messages module, `Raw`: the identity message template. -/
def Raw (s : String) : String := s

/-- Modelled from the spec (section 6, host bridging boundary):
`tryBridgeToGuest` of value.mjs (outside the given slice) — run a host
thunk and translate a host-native thrown error into a guest Throw carrying
the host error's name as the error kind and its message through the `Raw`
template. -/
def tryBridgeToGuest {α : Type} (hostThunkResult : HostResult α) : Completion α :=
  match hostThunkResult with
  | .ok v => .normal v
  | .threw name message => .thrown (.err name "Raw" [.str message])

/-- The `new hostDTF(...)` try/catch of the DateTimeFormat constructors
(`surroundingAgent.Throw(err.name, 'Raw', err.message)`). -/
def dtfHostConstruct {α : Type} (hostNew : HostResult α) : Completion α :=
  match hostNew with
  | .ok inst => .normal inst
  | .threw name message => .thrown (.err name "Raw" [.str message])

/-- The error kind identifier carried by a throw payload. -/
def errKindOf : ThrowPayload → Option String
  | .err k _ _ => some k
  | .val _ => none

/-- The formatted message of an engine error built from the `Raw` template
(the only template whose text the bridging claims depend on). -/
def errMessageOf : ThrowPayload → Option String
  | .err _ t args =>
    if t = "Raw" then
      match args with
      | [.str s] => some (Raw s)
      | _ => none
    else none
  | .val _ => none

/-- The Proxy trap-invariant violation kinds of the messages module (the
exported message constructors between `ProxyDefinePropertyNonConfigurable`
and `ProxySetFrozenAccessor`; `ProxyRevoked` is the revocation error, not a
trap-invariant violation). -/
inductive ProxyViolationKind where
  | ProxyDefinePropertyNonConfigurable : ProxyViolationKind
  | ProxyDefinePropertyNonConfigurableWritable : ProxyViolationKind
  | ProxyDefinePropertyNonExtensible : ProxyViolationKind
  | ProxyDefinePropertyIncompatible : ProxyViolationKind
  | ProxyDeletePropertyNonConfigurable : ProxyViolationKind
  | ProxyDeletePropertyNonExtensible : ProxyViolationKind
  | ProxyGetNonConfigurableData : ProxyViolationKind
  | ProxyGetNonConfigurableAccessor : ProxyViolationKind
  | ProxyGetPrototypeOfInvalid : ProxyViolationKind
  | ProxyGetPrototypeOfNonExtensible : ProxyViolationKind
  | ProxyGetOwnPropertyDescriptorIncompatible : ProxyViolationKind
  | ProxyGetOwnPropertyDescriptorInvalid : ProxyViolationKind
  | ProxyGetOwnPropertyDescriptorUndefined : ProxyViolationKind
  | ProxyGetOwnPropertyDescriptorNonExtensible : ProxyViolationKind
  | ProxyGetOwnPropertyDescriptorNonConfigurable : ProxyViolationKind
  | ProxyGetOwnPropertyDescriptorNonConfigurableWritable : ProxyViolationKind
  | ProxyHasNonConfigurable : ProxyViolationKind
  | ProxyHasNonExtensible : ProxyViolationKind
  | ProxyIsExtensibleInconsistent : ProxyViolationKind
  | ProxyOwnKeysMissing : ProxyViolationKind
  | ProxyOwnKeysNonExtensible : ProxyViolationKind
  | ProxyOwnKeysDuplicateEntries : ProxyViolationKind
  | ProxyPreventExtensionsExtensible : ProxyViolationKind
  | ProxySetPrototypeOfNonExtensible : ProxyViolationKind
  | ProxySetFrozenData : ProxyViolationKind
  | ProxySetFrozenAccessor : ProxyViolationKind
deriving DecidableEq

/-- The source identifier of each violation's message constructor. -/
def templateName : ProxyViolationKind → String
  | .ProxyDefinePropertyNonConfigurable => "ProxyDefinePropertyNonConfigurable"
  | .ProxyDefinePropertyNonConfigurableWritable => "ProxyDefinePropertyNonConfigurableWritable"
  | .ProxyDefinePropertyNonExtensible => "ProxyDefinePropertyNonExtensible"
  | .ProxyDefinePropertyIncompatible => "ProxyDefinePropertyIncompatible"
  | .ProxyDeletePropertyNonConfigurable => "ProxyDeletePropertyNonConfigurable"
  | .ProxyDeletePropertyNonExtensible => "ProxyDeletePropertyNonExtensible"
  | .ProxyGetNonConfigurableData => "ProxyGetNonConfigurableData"
  | .ProxyGetNonConfigurableAccessor => "ProxyGetNonConfigurableAccessor"
  | .ProxyGetPrototypeOfInvalid => "ProxyGetPrototypeOfInvalid"
  | .ProxyGetPrototypeOfNonExtensible => "ProxyGetPrototypeOfNonExtensible"
  | .ProxyGetOwnPropertyDescriptorIncompatible => "ProxyGetOwnPropertyDescriptorIncompatible"
  | .ProxyGetOwnPropertyDescriptorInvalid => "ProxyGetOwnPropertyDescriptorInvalid"
  | .ProxyGetOwnPropertyDescriptorUndefined => "ProxyGetOwnPropertyDescriptorUndefined"
  | .ProxyGetOwnPropertyDescriptorNonExtensible => "ProxyGetOwnPropertyDescriptorNonExtensible"
  | .ProxyGetOwnPropertyDescriptorNonConfigurable => "ProxyGetOwnPropertyDescriptorNonConfigurable"
  | .ProxyGetOwnPropertyDescriptorNonConfigurableWritable => "ProxyGetOwnPropertyDescriptorNonConfigurableWritable"
  | .ProxyHasNonConfigurable => "ProxyHasNonConfigurable"
  | .ProxyHasNonExtensible => "ProxyHasNonExtensible"
  | .ProxyIsExtensibleInconsistent => "ProxyIsExtensibleInconsistent"
  | .ProxyOwnKeysMissing => "ProxyOwnKeysMissing"
  | .ProxyOwnKeysNonExtensible => "ProxyOwnKeysNonExtensible"
  | .ProxyOwnKeysDuplicateEntries => "ProxyOwnKeysDuplicateEntries"
  | .ProxyPreventExtensionsExtensible => "ProxyPreventExtensionsExtensible"
  | .ProxySetPrototypeOfNonExtensible => "ProxySetPrototypeOfNonExtensible"
  | .ProxySetFrozenData => "ProxySetFrozenData"
  | .ProxySetFrozenAccessor => "ProxySetFrozenAccessor"

/-- The trap each violation message names (quoted at the start of the
message text). -/
def trapOf : ProxyViolationKind → String
  | .ProxyDefinePropertyNonConfigurable => "defineProperty"
  | .ProxyDefinePropertyNonConfigurableWritable => "defineProperty"
  | .ProxyDefinePropertyNonExtensible => "defineProperty"
  | .ProxyDefinePropertyIncompatible => "defineProperty"
  | .ProxyDeletePropertyNonConfigurable => "deleteProperty"
  | .ProxyDeletePropertyNonExtensible => "deleteProperty"
  | .ProxyGetNonConfigurableData => "get"
  | .ProxyGetNonConfigurableAccessor => "get"
  | .ProxyGetPrototypeOfInvalid => "getPrototypeOf"
  | .ProxyGetPrototypeOfNonExtensible => "getPrototypeOf"
  | .ProxyGetOwnPropertyDescriptorIncompatible => "getOwnPropertyDescriptor"
  | .ProxyGetOwnPropertyDescriptorInvalid => "getOwnPropertyDescriptor"
  | .ProxyGetOwnPropertyDescriptorUndefined => "getOwnPropertyDescriptor"
  | .ProxyGetOwnPropertyDescriptorNonExtensible => "getOwnPropertyDescriptor"
  | .ProxyGetOwnPropertyDescriptorNonConfigurable => "getOwnPropertyDescriptor"
  | .ProxyGetOwnPropertyDescriptorNonConfigurableWritable => "getOwnPropertyDescriptor"
  | .ProxyHasNonConfigurable => "has"
  | .ProxyHasNonExtensible => "has"
  | .ProxyIsExtensibleInconsistent => "isExtensible"
  | .ProxyOwnKeysMissing => "ownKeys"
  | .ProxyOwnKeysNonExtensible => "ownKeys"
  | .ProxyOwnKeysDuplicateEntries => "ownKeys"
  | .ProxyPreventExtensionsExtensible => "preventExtensions"
  | .ProxySetPrototypeOfNonExtensible => "setPrototypeOf"
  | .ProxySetFrozenData => "set"
  | .ProxySetFrozenAccessor => "set"

/-- Whether the violation's message interpolates an argument (the inspected
property key, or for `ProxyIsExtensibleInconsistent` the target's actual
extensibility). -/
def hasArgOf : ProxyViolationKind → Bool
  | .ProxyGetPrototypeOfInvalid => false
  | .ProxyGetPrototypeOfNonExtensible => false
  | .ProxyOwnKeysNonExtensible => false
  | .ProxyOwnKeysDuplicateEntries => false
  | .ProxyPreventExtensionsExtensible => false
  | .ProxySetPrototypeOfNonExtensible => false
  | _ => true

/-- Whether the violation concerns a specific property (its interpolated
argument is that property key). -/
def concernsProperty : ProxyViolationKind → Bool
  | .ProxyIsExtensibleInconsistent => false
  | k => hasArgOf k

/-- The literal message text between the quoted trap name and the
interpolated argument (the whole remaining text for argument-less
messages). -/
def afterTrapOf : ProxyViolationKind → String
  | .ProxyDefinePropertyNonConfigurable => "\x27 on proxy: trap returned truthy for defining non-configurable property "
  | .ProxyDefinePropertyNonConfigurableWritable => "\x27 on proxy: trap returned truthy for defining non-configurable property "
  | .ProxyDefinePropertyNonExtensible => "\x27 on proxy: trap returned truthy for adding property "
  | .ProxyDefinePropertyIncompatible => "\x27 on proxy: trap returned truthy for adding property "
  | .ProxyDeletePropertyNonConfigurable => "\x27 on proxy: trap returned truthy for property "
  | .ProxyDeletePropertyNonExtensible => "\x27 on proxy: trap returned truthy for property "
  | .ProxyGetNonConfigurableData => "\x27 on proxy: property "
  | .ProxyGetNonConfigurableAccessor => "\x27 on proxy: property "
  | .ProxyGetPrototypeOfInvalid => "\x27 on proxy: trap returned neither object nor null"
  | .ProxyGetPrototypeOfNonExtensible => "\x27 on proxy: proxy target is non-extensible but the trap did not return its actual prototype"
  | .ProxyGetOwnPropertyDescriptorIncompatible => "\x27 on proxy: trap returned descriptor for property "
  | .ProxyGetOwnPropertyDescriptorInvalid => "\x27 on proxy: trap returned neither object nor undefined for property "
  | .ProxyGetOwnPropertyDescriptorUndefined => "\x27 on proxy: trap returned undefined for property "
  | .ProxyGetOwnPropertyDescriptorNonExtensible => "\x27 on proxy: trap returned undefined for property "
  | .ProxyGetOwnPropertyDescriptorNonConfigurable => "\x27 on proxy: trap reported non-configurability for property "
  | .ProxyGetOwnPropertyDescriptorNonConfigurableWritable => "\x27 on proxy: trap reported non-configurability for property "
  | .ProxyHasNonConfigurable => "\x27 on proxy: trap returned falsy for property "
  | .ProxyHasNonExtensible => "\x27 on proxy: trap returned falsy for property "
  | .ProxyIsExtensibleInconsistent => "\x27 on proxy: trap result does not reflect extensibility of proxy target (which is "
  | .ProxyOwnKeysMissing => "\x27 on proxy: trap result did not include "
  | .ProxyOwnKeysNonExtensible => "\x27 on proxy: trap result returned extra keys but proxy target is non-extensible"
  | .ProxyOwnKeysDuplicateEntries => "\x27 on proxy: trap returned duplicate entries"
  | .ProxyPreventExtensionsExtensible => "\x27 on proxy: trap returned truthy but the proxy target is extensible"
  | .ProxySetPrototypeOfNonExtensible => "\x27 on proxy: trap returned truthy for setting a new prototype on the non-extensible proxy target"
  | .ProxySetFrozenData => "\x27 on proxy: trap returned truthy for property "
  | .ProxySetFrozenAccessor => "\x27 on proxy: trap returned truthy for property "

/-- The literal message text after the interpolated argument. -/
def afterArgOf : ProxyViolationKind → String
  | .ProxyDefinePropertyNonConfigurable => " which is either non-existent or configurable in the proxy target"
  | .ProxyDefinePropertyNonConfigurableWritable => " which cannot be non-writable, unless there exists a corresponding non-configurable, non-writable own property of the target object"
  | .ProxyDefinePropertyNonExtensible => " to the non-extensible proxy target"
  | .ProxyDefinePropertyIncompatible => " that is incompatible with the existing property in the proxy target"
  | .ProxyDeletePropertyNonConfigurable => " which is non-configurable in the proxy target"
  | .ProxyDeletePropertyNonExtensible => " but the proxy target is non-extensible"
  | .ProxyGetNonConfigurableData => " is a read-only and non-configurable data property on the proxy target but the proxy did not return its actual value"
  | .ProxyGetNonConfigurableAccessor => " is a non-configurable accessor property on the proxy target and does not have a getter function, but the trap did not return \x27undefined\x27"
  | .ProxyGetOwnPropertyDescriptorIncompatible => " that is incompatible with the existing property in the proxy target"
  | .ProxyGetOwnPropertyDescriptorInvalid => ""
  | .ProxyGetOwnPropertyDescriptorUndefined => " which is non-configurable in the proxy target"
  | .ProxyGetOwnPropertyDescriptorNonExtensible => " which exists in the non-extensible target"
  | .ProxyGetOwnPropertyDescriptorNonConfigurable => " which is either non-existent or configurable in the proxy target"
  | .ProxyGetOwnPropertyDescriptorNonConfigurableWritable => " which is writable or configurable in the proxy target"
  | .ProxyHasNonConfigurable => " which exists in the proxy target as non-configurable"
  | .ProxyHasNonExtensible => " but the proxy target is not extensible"
  | .ProxyIsExtensibleInconsistent => ")"
  | .ProxyOwnKeysMissing => ""
  | .ProxySetFrozenData => " which exists in the proxy target as a non-configurable and non-writable data property with a different value"
  | .ProxySetFrozenAccessor => " which exists in the proxy target as a non-configurable and non-writable accessor property without a setter"
  | _ => ""

/-- The formatted violation message: the source template literals are the
concatenation of an opening quote, the trap name, the text up to the
interpolated argument, the rendered argument, and the closing text.
`p` is the rendered argument (`i(p)` in the source). -/
def proxyViolationMessage (k : ProxyViolationKind) (p : String) : String :=
  "\x27" ++ (trapOf k ++ (afterTrapOf k ++ (if hasArgOf k then p ++ afterArgOf k else "")))

/-- Enumeration of all violation kinds. -/
def allProxyViolationKinds : List ProxyViolationKind :=
  [.ProxyDefinePropertyNonConfigurable, .ProxyDefinePropertyNonConfigurableWritable,
   .ProxyDefinePropertyNonExtensible, .ProxyDefinePropertyIncompatible,
   .ProxyDeletePropertyNonConfigurable, .ProxyDeletePropertyNonExtensible,
   .ProxyGetNonConfigurableData, .ProxyGetNonConfigurableAccessor,
   .ProxyGetPrototypeOfInvalid, .ProxyGetPrototypeOfNonExtensible,
   .ProxyGetOwnPropertyDescriptorIncompatible, .ProxyGetOwnPropertyDescriptorInvalid,
   .ProxyGetOwnPropertyDescriptorUndefined, .ProxyGetOwnPropertyDescriptorNonExtensible,
   .ProxyGetOwnPropertyDescriptorNonConfigurable, .ProxyGetOwnPropertyDescriptorNonConfigurableWritable,
   .ProxyHasNonConfigurable, .ProxyHasNonExtensible, .ProxyIsExtensibleInconsistent,
   .ProxyOwnKeysMissing, .ProxyOwnKeysNonExtensible, .ProxyOwnKeysDuplicateEntries,
   .ProxyPreventExtensionsExtensible, .ProxySetPrototypeOfNonExtensible,
   .ProxySetFrozenData, .ProxySetFrozenAccessor]

instance : Fintype ProxyViolationKind where
  elems := ⟨allProxyViolationKinds, by decide⟩
  complete := by intro k; cases k <;> decide

/-- One string occurs inside another (stated on the code-unit lists). -/
def strIncl (hay piece : String) : Prop :=
  ∃ pre post, hay.data = pre ++ piece.data ++ post

/-!
Model of the two Intl.DateTimeFormat bootstrap variants.  Both variants
consult the options argument only through `Get` on a fixed set of property
names; under the claim's hypothesis that every consulted property is an
ordinary data property (no getters), each `Get` is a pure lookup, modelled
as a function from names to raw values.  A raw guest value is modelled by
the only observations the pipelines make of it: whether it is undefined,
and the completions of its ToString / ToNumber / ToBoolean coercions.
The host services both variants share (locale canonicalization, the host
time-zone probe, the final host construction) are oracle parameters.
-/

/-- The option property names the DateTimeFormat pipelines consult. -/
inductive OptName where
  | localeMatcher : OptName
  | calendar : OptName
  | numberingSystem : OptName
  | hour12 : OptName
  | hourCycle : OptName
  | timeZone : OptName
  | weekday : OptName
  | era : OptName
  | year : OptName
  | month : OptName
  | day : OptName
  | dayPeriod : OptName
  | hour : OptName
  | minute : OptName
  | second : OptName
  | fractionalSecondDigits : OptName
  | timeZoneName : OptName
  | formatMatcher : OptName
  | dateStyle : OptName
  | timeStyle : OptName
deriving DecidableEq

/-- A guest value as observed by the option-reading code: undefined-ness
and the results of its coercions. -/
structure RawVal where
  isUndef : Bool
  asString : Completion String
  asNumber : Completion JSNum
  asBool : Bool

/-- The absent / undefined property value. -/
def undefRaw : RawVal := ⟨true, .normal "undefined", .normal .nan, false⟩

/-- The guest string value `'numeric'` installed by the defaulting code. -/
def numericRaw : RawVal := ⟨false, .normal "numeric", .normal .nan, true⟩

/-- A pure property lookup for the consulted names (the no-getter
hypothesis of the claim). -/
def OptLookup := OptName → RawVal

/-- The options argument: undefined, null, or an object (including the
wrappers ToObject makes of other primitives) given by its lookup. -/
inductive OptionsArg where
  | undef : OptionsArg
  | nullv : OptionsArg
  | obj : OptLookup → OptionsArg

/-- The default value argument of GetOption: the `'required'` sentinel or a
(possibly undefined) value. -/
inductive OptDefault where
  | required : OptDefault
  | val : Option String → OptDefault

/-- Shared `GetOption` (string type): read, default when undefined (or
throw for `'required'`), coerce with ToString, validate against the
allowed values (`none` = the `'empty'` sentinel, no validation). -/
def GetOptionString (v : RawVal) (name : String) (allowed : Option (List String)) (defaultValue : OptDefault) : Completion (Option String) :=
  if v.isUndef then
    match defaultValue with
    | .required => .thrown (.err "RangeError" "MissingRequiredProperty" [.str name])
    | .val s => .normal s
  else
    match v.asString with
    | .normal s =>
      match allowed with
      | some values =>
        if values.contains s then .normal (some s)
        else .thrown (.err "RangeError" "UnsupportedValueForProperty" [.str name, .str s])
      | none => .normal (some s)
    | .thrown e => .thrown e
    | .ret x => .ret x
    | .brk l => .brk l
    | .cont l => .cont l

/-- Shared `GetOption` (boolean type, used with the `'empty'` values
sentinel and an undefined default): ToBoolean never throws. -/
def GetOptionBoolean (v : RawVal) : Completion (Option Bool) :=
  if v.isUndef then .normal none else .normal (some v.asBool)

/-- The numeric projection used by GetNumberOption's range check: NaN is
`none`, −0 and other numbers their rational value. -/
def jsNumToRat : JSNum → Option ℚ
  | .nan => none
  | .negZero => some 0
  | .num q => some q

/-- Shared `GetNumberOption`: default when undefined, coerce with ToNumber,
throw OutOfRange for NaN or out-of-range, floor otherwise. -/
def GetNumberOption (v : RawVal) (name : String) (minimum maximum : ℚ) : Completion (Option ℤ) :=
  if v.isUndef then .normal none
  else
    match v.asNumber with
    | .normal n =>
      match jsNumToRat n with
      | none => .thrown (.err "RangeError" "OutOfRange" [.str name])
      | some q =>
        if q < minimum ∨ maximum < q then .thrown (.err "RangeError" "OutOfRange" [.str name])
        else .normal (some ⌊q⌋)
    | .thrown e => .thrown e
    | .ret x => .ret x
    | .brk l => .brk l
    | .cont l => .cont l

def INTL_TEXT_OPTION_VALUES : List String := ["narrow", "short", "long"]

def INTL_NUMERIC_OPTION_VALUES : List String := ["2-digit", "numeric"]

def TIMEZONE_NAME_OPTION_VALUES : List String :=
  ["short", "long", "shortOffset", "longOffset", "shortGeneric", "longGeneric"]

def HOUR_CYCLE_OPTION_VALUES : List String := ["h11", "h12", "h23", "h24"]

def LOCALE_MATCHER_OPTION_VALUES : List String := ["lookup", "best fit"]

def FORMAT_MATCHER_OPTION_VALUES : List String := ["basic", "best fit"]

def STYLE_OPTION_VALUES : List String := ["full", "long", "medium", "short"]

/-- The `UTS35Type` regular expression: runs of 3–8 ASCII alphanumerics
joined by single hyphens. -/
def isUTS35Type (s : String) : Bool :=
  (s.splitOn "-").all fun seg => 3 ≤ seg.length && seg.length ≤ 8 && seg.all Char.isAlphanum

/-- The host options bag handed to the host DateTimeFormat constructor
(`none` = the host-undefined a guest undefined bridges to). -/
structure HostOptions where
  localeMatcher : Option String
  calendar : Option String
  numberingSystem : Option String
  hour12 : Option Bool
  hourCycle : Option String
  timeZone : Option String
  weekday : Option String
  era : Option String
  year : Option String
  month : Option String
  day : Option String
  dayPeriod : Option String
  hour : Option String
  minute : Option String
  second : Option String
  fractionalSecondDigits : Option ℤ
  timeZoneName : Option String
  formatMatcher : Option String
  dateStyle : Option String
  timeStyle : Option String
deriving DecidableEq

/-- The host services and surrounding effects both constructors share:
`OrdinaryCreateFromConstructor`, `limitedCanonicalizeLocaleList`, and the
host time-zone probe (`none` = the probe constructor threw). -/
structure DTFOracles where
  createInstance : Completion Unit
  canonLocales : Completion (List String)
  resolveTZ : String → Option String

/-- `CoerceOptionsToObject`: undefined becomes a fresh empty
null-prototype object, null fails ToObject, objects pass through. -/
def CoerceOptionsToObject : OptionsArg → Completion OptLookup
  | .undef => .normal fun _ => undefRaw
  | .nullv => .thrown (.err "TypeError" "CannotConvertToObject" [.str "null"])
  | .obj f => .normal f

def dateDefaultProps : List OptName := [.year, .month, .day]

def timeDefaultProps : List OptName := [.hour, .minute, .second]

def dateRequiredProps : List OptName := [.weekday, .year, .month, .day]

def timeRequiredProps : List OptName := [.dayPeriod, .hour, .minute, .second, .fractionalSecondDigits]

/-- `ToDateTimeOptions` of the wrapper variant: coerce (undefined → a fresh
null-prototype wrapper), decide needDefaults from the raw reads, enforce
the required-category 'date'/'time' prohibitions, and return the wrapper
lookup: defaults become own data properties shadowing nothing (they are
only installed when the corresponding reads were undefined). -/
def ToDateTimeOptions (options : OptionsArg) (required defaults : String) : Completion OptLookup :=
  match (match options with
         | .undef => (.normal fun _ => undefRaw : Completion OptLookup)
         | .nullv => .thrown (.err "TypeError" "CannotConvertToObject" [.str "null"])
         | .obj f => .normal f) with
  | .normal base =>
    let checkedProps :=
      (if required == "date" || required == "any" then dateRequiredProps else []) ++
      (if required == "time" || required == "any" then timeRequiredProps else [])
    let anyPresent := checkedProps.any fun p => !(base p).isUndef
    let dateStyleUndef := (base .dateStyle).isUndef
    let timeStyleUndef := (base .timeStyle).isUndef
    let needDefaults := !anyPresent && dateStyleUndef && timeStyleUndef
    if required == "date" && !timeStyleUndef then
      .thrown (.err "TypeError" "IncompatibleOptions" [.str "date-only formatting prohibits \"timeStyle\""])
    else if required == "time" && !dateStyleUndef then
      .thrown (.err "TypeError" "IncompatibleOptions" [.str "time-only formatting prohibits \"dateStyle\""])
    else
      let addDate := needDefaults && (defaults == "date" || defaults == "all")
      let addTime := needDefaults && (defaults == "time" || defaults == "all")
      .normal fun n =>
        if addDate && dateDefaultProps.contains n then numericRaw
        else if addTime && timeDefaultProps.contains n then numericRaw
        else base n
  | .thrown e => .thrown e
  | .ret x => .ret x
  | .brk l => .brk l
  | .cont l => .cont l

/-- The timeZone step shared by both variants: read, ToString, probe the
host for the resolved IANA name (throwing NotWellFormed when the probe
constructor throws). -/
def dtfReadTimeZone (resolveTZ : String → Option String) (v : RawVal) : Completion (Option String) :=
  if v.isUndef then .normal none
  else
    (v.asString).bind fun s =>
      match resolveTZ s with
      | some tz => .normal (some tz)
      | none => .thrown (.err "RangeError" "NotWellFormed" [.str "IANA time zone name", .str s])

/-- The UTS35 well-formedness check applied to the calendar and
numberingSystem options. -/
def dtfCheckUTS35 (c : Option String) : Completion Unit :=
  match c with
  | some s =>
    if isUTS35Type s then .normal ()
    else .thrown (.err "RangeError" "NotWellFormed"
      [.str "Unicode BCP 47 -u- extension keyword type value", .str s])
  | none => .normal ()

/-- The option-reading and validation sequence the two variants share
verbatim (inline variant lines 240–317, wrapper variant lines 286–363):
localeMatcher, calendar and numberingSystem with UTS35 checks, hour12,
hourCycle, timeZone, the eleven DTF_COMPONENTS in table order (tracking
whether any was explicitly present), formatMatcher, dateStyle, timeStyle.
Returns the accumulated host options and the
hasExplicitFormatComponents flag. -/
def dtfReadHostOptions (resolveTZ : String → Option String) (L : OptLookup) : Completion (HostOptions × Bool) :=
  (GetOptionString (L .localeMatcher) "localeMatcher" (some LOCALE_MATCHER_OPTION_VALUES) (.val (some "best fit"))).bind fun localeMatcher =>
  (GetOptionString (L .calendar) "calendar" none (.val none)).bind fun calendar =>
  (dtfCheckUTS35 calendar).bind fun _ =>
  (GetOptionString (L .numberingSystem) "numberingSystem" none (.val none)).bind fun numberingSystem =>
  (dtfCheckUTS35 numberingSystem).bind fun _ =>
  (GetOptionBoolean (L .hour12)).bind fun hour12 =>
  (GetOptionString (L .hourCycle) "hourCycle" (some HOUR_CYCLE_OPTION_VALUES) (.val none)).bind fun hourCycle =>
  (dtfReadTimeZone resolveTZ (L .timeZone)).bind fun timeZone =>
  (GetOptionString (L .weekday) "weekday" (some INTL_TEXT_OPTION_VALUES) (.val none)).bind fun weekday =>
  (GetOptionString (L .era) "era" (some INTL_TEXT_OPTION_VALUES) (.val none)).bind fun era =>
  (GetOptionString (L .year) "year" (some INTL_NUMERIC_OPTION_VALUES) (.val none)).bind fun year =>
  (GetOptionString (L .month) "month" (some (INTL_NUMERIC_OPTION_VALUES ++ INTL_TEXT_OPTION_VALUES)) (.val none)).bind fun month =>
  (GetOptionString (L .day) "day" (some INTL_NUMERIC_OPTION_VALUES) (.val none)).bind fun day =>
  (GetOptionString (L .dayPeriod) "dayPeriod" (some INTL_TEXT_OPTION_VALUES) (.val none)).bind fun dayPeriod =>
  (GetOptionString (L .hour) "hour" (some INTL_NUMERIC_OPTION_VALUES) (.val none)).bind fun hour =>
  (GetOptionString (L .minute) "minute" (some INTL_NUMERIC_OPTION_VALUES) (.val none)).bind fun minute =>
  (GetOptionString (L .second) "second" (some INTL_NUMERIC_OPTION_VALUES) (.val none)).bind fun second =>
  (GetNumberOption (L .fractionalSecondDigits) "fractionalSecondDigits" 1 3).bind fun fractionalSecondDigits =>
  (GetOptionString (L .timeZoneName) "timeZoneName" (some TIMEZONE_NAME_OPTION_VALUES) (.val none)).bind fun timeZoneName =>
  let hasExplicitFormatComponents :=
    weekday.isSome || era.isSome || year.isSome || month.isSome || day.isSome ||
    dayPeriod.isSome || hour.isSome || minute.isSome || second.isSome ||
    fractionalSecondDigits.isSome || timeZoneName.isSome
  (GetOptionString (L .formatMatcher) "formatMatcher" (some FORMAT_MATCHER_OPTION_VALUES) (.val (some "best fit"))).bind fun formatMatcher =>
  (GetOptionString (L .dateStyle) "dateStyle" (some STYLE_OPTION_VALUES) (.val none)).bind fun dateStyle =>
  (GetOptionString (L .timeStyle) "timeStyle" (some STYLE_OPTION_VALUES) (.val none)).bind fun timeStyle =>
  .normal (⟨localeMatcher, calendar, numberingSystem, hour12, hourCycle, timeZone,
            weekday, era, year, month, day, dayPeriod, hour, minute, second,
            fractionalSecondDigits, timeZoneName, formatMatcher, dateStyle, timeStyle⟩,
           hasExplicitFormatComponents)

/-- The inline variant's closing logic (lines 318–352): with a broad style
present, reject explicit components (and, for date-only or time-only
categories, the other style); otherwise apply the category defaults into the
host options. -/
def dtfInlineFinal (requiredCategory defaultsCategory : String) (ho : HostOptions) (hasExplicitFormatComponents : Bool) : Completion HostOptions :=
  if ho.dateStyle.isSome || ho.timeStyle.isSome then
    if hasExplicitFormatComponents then
      .thrown (.err "TypeError" "IncompatibleOptions"
        [.str "\"dateStyle\" and \"timeStyle\" prohibit component-specific formatting"])
    else if requiredCategory == "date" && ho.timeStyle.isSome then
      .thrown (.err "TypeError" "IncompatibleOptions" [.str "date-only formatting prohibits \"timeStyle\""])
    else if requiredCategory == "time" && ho.dateStyle.isSome then
      .thrown (.err "TypeError" "IncompatibleOptions" [.str "time-only formatting prohibits \"dateStyle\""])
    else .normal ho
  else
    let ndDate :=
      if requiredCategory == "date" || requiredCategory == "any" then
        ho.weekday.isNone && ho.year.isNone && ho.month.isNone && ho.day.isNone
      else true
    let ndTime :=
      if requiredCategory == "time" || requiredCategory == "any" then
        ho.dayPeriod.isNone && ho.hour.isNone && ho.minute.isNone && ho.second.isNone &&
        ho.fractionalSecondDigits.isNone
      else true
    let needDefaults := ndDate && ndTime
    let ho1 :=
      if needDefaults && (defaultsCategory == "date" || defaultsCategory == "all") then
        { ho with year := some "numeric", month := some "numeric", day := some "numeric" }
      else ho
    let ho2 :=
      if needDefaults && (defaultsCategory == "time" || defaultsCategory == "all") then
        { ho1 with hour := some "numeric", minute := some "numeric", second := some "numeric" }
      else ho1
    .normal ho2

/-- The wrapper variant's closing logic (lines 364–371): a broad style
together with explicit components is the only rejection; defaults were
already installed by ToDateTimeOptions. -/
def dtfWrappedFinal (ho : HostOptions) (hasExplicitFormatComponents : Bool) : Completion HostOptions :=
  let broadStyle := ho.dateStyle.isSome || ho.timeStyle.isSome
  if broadStyle && hasExplicitFormatComponents then
    .thrown (.err "TypeError" "IncompatibleOptions"
      [.str "\"dateStyle\" and \"timeStyle\" prohibit field-specific formatting"])
  else .normal ho

/-- `CreateDateTimeFormat` of the inline variant: create the instance,
canonicalize the locales, coerce the options, run the shared reads, close
with the inline defaulting, and return the host constructor arguments. -/
def CreateDateTimeFormat (o : DTFOracles) (optionsArg : OptionsArg) (requiredCategory defaultsCategory : String) : Completion (List String × HostOptions) :=
  o.createInstance.bind fun _ =>
  o.canonLocales.bind fun requestedLocales =>
  (CoerceOptionsToObject optionsArg).bind fun L =>
  (dtfReadHostOptions o.resolveTZ L).bind fun r =>
  (dtfInlineFinal requiredCategory defaultsCategory r.1 r.2).map fun ho => (requestedLocales, ho)

/-- `DTFConstructor` of the wrapper variant: create the instance,
canonicalize the locales, build the ToDateTimeOptions wrapper with
required 'any' and defaults 'date', run the shared reads on the wrapper,
close with the single style/component rejection, and return the host
constructor arguments. -/
def DTFConstructor (o : DTFOracles) (optionsArg : OptionsArg) : Completion (List String × HostOptions) :=
  o.createInstance.bind fun _ =>
  o.canonLocales.bind fun requestedLocales =>
  (ToDateTimeOptions optionsArg "any" "date").bind fun L =>
  (dtfReadHostOptions o.resolveTZ L).bind fun r =>
  (dtfWrappedFinal r.1 r.2).map fun ho => (requestedLocales, ho)

/-- The equivalence the refinement claim asks for: equal completions, or
both Throws of engine errors with the same error kind. -/
def sameKindOrEqual {α : Type} (c1 c2 : Completion α) : Prop :=
  c1 = c2 ∨ ∃ k t1 a1 t2 a2, c1 = .thrown (.err k t1 a1) ∧ c2 = .thrown (.err k t2 a2)

/-- The needDefaults condition ToDateTimeOptions computes at
required 'any': none of the nine date/time components is present and
neither broad style is present, all read raw. -/
def needDefaultsRaw (base : OptLookup) : Bool :=
  !((dateRequiredProps ++ timeRequiredProps).any fun p => !(base p).isUndef) &&
  (base .dateStyle).isUndef && ((base .timeStyle).isUndef)

/-- A Callback that never mutates the storage and never returns abruptly. -/
def noopCallback : Callback := fun _ s => (.normal .undef, s)

/-- A Callback that, on seeing the number 1, appends the number 2 to the
storage (re-entrant `add` during iteration). -/
def appendOnOne : Callback := fun e s =>
  if SameValueZero e (.number (.num 1)) then (.normal .undef, s ++ [some (.number (.num 2))])
  else (.normal .undef, s)

/-- A Set receiver whose storage holds exactly the number 1. -/
def c3Receiver : SReceiver := ⟨.obj 0, some [some (.number (.num 1))]⟩

/-- The forEach run in which the callback appends during iteration. -/
def c3Run : Option (Completion JSValue × SReceiver × List ForEachVisit) :=
  SetProto_forEach (.callable appendOnOne) c3Receiver 5

/-- The invocation trace of that run. -/
def c3Vis : List ForEachVisit :=
  match c3Run with
  | some r => r.2.2
  | none => []

/-- The receiver obtained from a fresh Set by add(1); add(2); delete(1). -/
def c4Chain : SReceiver :=
  (SetProto_delete (.number (.num 1))
    (SetProto_add (.number (.num 2))
      (SetProto_add (.number (.num 1)) ⟨.obj 0, some []⟩).2).2).2

/-!
Theorems.
-/

theorem setProto_brand_error (S : SReceiver) (h : S.setData = none) :
    RequireInternalSlot S = .thrown (.err "TypeError" "InternalSlotMissing" [S.val, .str "SetData"]) := by
  simp [RequireInternalSlot, h]

/-- C6: every Set.prototype method (add, clear, delete, forEach, has, the
size getter) called on a receiver without the SetData internal slot fails
before touching any storage with a Throw of the TypeError whose message is
InternalSlotMissing parameterized by the receiver and the slot name, and
the receiver is unmodified. -/
theorem setProto_missing_slot_uniform_error (S : SReceiver) (v : JSValue) (cbarg : CallbackArg) (fuel : ℕ) (h : S.setData = none) :
    SetProto_add v S = (.thrown (.err "TypeError" "InternalSlotMissing" [S.val, .str "SetData"]), S) ∧
    SetProto_clear S = (.thrown (.err "TypeError" "InternalSlotMissing" [S.val, .str "SetData"]), S) ∧
    SetProto_delete v S = (.thrown (.err "TypeError" "InternalSlotMissing" [S.val, .str "SetData"]), S) ∧
    SetProto_has v S = .thrown (.err "TypeError" "InternalSlotMissing" [S.val, .str "SetData"]) ∧
    SetProto_sizeGetter S = .thrown (.err "TypeError" "InternalSlotMissing" [S.val, .str "SetData"]) ∧
    SetProto_forEach cbarg S fuel = some (.thrown (.err "TypeError" "InternalSlotMissing" [S.val, .str "SetData"]), S, []) := by
  rw [SetProto_add, SetProto_clear, SetProto_delete, SetProto_has, SetProto_sizeGetter,
    SetProto_forEach, setProto_brand_error S h]
  exact ⟨rfl, rfl, rfl, rfl, rfl, rfl⟩

theorem setProto_missing_slot_uniform_error_witness :
    (⟨.number .nan, none⟩ : SReceiver).setData = none ∧
    SetProto_has .undef ⟨.number .nan, none⟩ =
      .thrown (.err "TypeError" "InternalSlotMissing" [.number .nan, .str "SetData"]) :=
  ⟨rfl, (setProto_missing_slot_uniform_error ⟨.number .nan, none⟩ .undef (.notCallable .undef) 0 rfl).2.2.2.1⟩

/-- C10: clear replaces every slot of the storage with a hole and returns
undefined; the storage length is unchanged, and the size getter then
returns 0. -/
theorem setProto_clear_holes (S : SReceiver) (entries : SetStorage) (h : S.setData = some entries) :
    SetProto_clear S = (.normal .undef, { S with setData := some (entries.map fun _ => none) }) ∧
    (entries.map fun _ => (none : Option JSValue)).length = entries.length ∧
    SetProto_sizeGetter (SetProto_clear S).2 = .normal (.number (.num 0)) := by
  refine ⟨by simp [SetProto_clear, RequireInternalSlot, h], by simp, ?_⟩
  simp [SetProto_clear, SetProto_sizeGetter, RequireInternalSlot, h, List.countP_map]

theorem setProto_clear_holes_witness :
    (⟨.obj 0, some [some .null, none]⟩ : SReceiver).setData = some [some .null, none] ∧
    SetProto_sizeGetter (SetProto_clear ⟨.obj 0, some [some .null, none]⟩).2 = .normal (.number (.num 0)) :=
  ⟨rfl, (setProto_clear_holes ⟨.obj 0, some [some .null, none]⟩ [some .null, none] rfl).2.2⟩

/-- C7: a host-native error thrown by a host call made through the bridging
layer — the `new hostDTF` catch of the DateTimeFormat constructor, and the
general tryBridgeToGuest adapter — becomes a guest Throw whose error kind
is the host error's name and whose formatted message (through the `Raw`
identity template) is the host error's message, verbatim. -/
theorem host_error_bridging (n m : String) :
    dtfHostConstruct (.threw n m : HostResult ℕ) = .thrown (.err n "Raw" [.str m]) ∧
    tryBridgeToGuest (.threw n m : HostResult ℕ) = .thrown (.err n "Raw" [.str m]) ∧
    errKindOf (.err n "Raw" [.str m]) = some n ∧
    errMessageOf (.err n "Raw" [.str m]) = some m ∧
    Raw m = m := by
  refine ⟨rfl, rfl, rfl, ?_, rfl⟩
  simp [errMessageOf, Raw]

theorem svz_negZero_eq_posZero (x : JSValue) :
    SameValueZero x (.number .negZero) = SameValueZero x (.number (.num 0)) := by
  cases x with
  | number n => cases n <;> simp [SameValueZero, numSameValueZero]
  | _ => simp [SameValueZero]

theorem svz_refl (x : JSValue) : SameValueZero x x = true := by
  cases x with
  | number n => cases n <;> simp [SameValueZero, numSameValueZero]
  | _ => simp [SameValueZero]

theorem svz_canon (x v : JSValue) :
    SameValueZero x (canonicalizeForSet v) = SameValueZero x v := by
  by_cases h : v = .number .negZero
  · subst h
    simp [canonicalizeForSet, svz_negZero_eq_posZero]
  · simp [canonicalizeForSet, h]

theorem svz_canon_self (v : JSValue) : SameValueZero (canonicalizeForSet v) v = true := by
  by_cases h : v = .number .negZero
  · subst h
    simp [canonicalizeForSet, SameValueZero, numSameValueZero]
  · simp [canonicalizeForSet, h, svz_refl]

theorem requireSlot_some (S : SReceiver) (entries : SetStorage) (h : S.setData = some entries) :
    RequireInternalSlot S = .normal entries := by
  simp [RequireInternalSlot, h]

theorem setProto_add_eval (S : SReceiver) (entries : SetStorage) (v : JSValue) (h : S.setData = some entries) :
    SetProto_add v S =
      (if entries.any (slotMatches v) then (.normal S.val, S)
       else (.normal S.val, { S with setData := some (entries ++ [some (canonicalizeForSet v)]) })) := by
  rw [SetProto_add, requireSlot_some S entries h]

theorem setProto_has_eval (S : SReceiver) (entries : SetStorage) (v : JSValue) (h : S.setData = some entries) :
    SetProto_has v S = .normal (.bool (entries.any (slotMatches v))) := by
  rw [SetProto_has, requireSlot_some S entries h]

theorem setProto_size_eval (S : SReceiver) (entries : SetStorage) (h : S.setData = some entries) :
    SetProto_sizeGetter S = .normal (.number (.num ((entries.countP fun e => e.isSome : ℕ) : ℚ))) := by
  rw [SetProto_sizeGetter, requireSlot_some S entries h]

/-- C2 counterexample: on a receiver whose storage already holds the number
1, add(−0) followed by add(+0) leaves the size getter returning 2, not 1
(the claim universally quantifies the size consequence over every receiver
with the SetData slot). -/
theorem set_negZero_size_counterexample :
    SetProto_sizeGetter
      (SetProto_add (.number (.num 0))
        (SetProto_add (.number .negZero) ⟨.obj 0, some [some (.number (.num 1))]⟩).2).2 =
      .normal (.number (.num 2)) ∧
    (.normal (.number (.num 2)) : Completion JSValue) ≠ .normal (.number (.num 1)) := by
  constructor
  · decide
  · decide

/-- C2 (amended): add(−0) canonicalizes at insertion — it either leaves the
storage unchanged (a SameValueZero match was present) or appends +0, never
−0; consequently has(+0) afterwards returns true, and when the storage was
initially empty, add(−0) followed by add(+0) leaves the size getter
returning 1. -/
theorem set_negZero_canonicalization (S : SReceiver) (entries : SetStorage) (h : S.setData = some entries) :
    (SetProto_add (.number .negZero) S).1 = .normal S.val ∧
    ((SetProto_add (.number .negZero) S).2.setData = some entries ∨
     (SetProto_add (.number .negZero) S).2.setData = some (entries ++ [some (.number (.num 0))])) ∧
    SetProto_has (.number (.num 0)) (SetProto_add (.number .negZero) S).2 = .normal (.bool true) ∧
    (entries = [] →
      SetProto_sizeGetter
        (SetProto_add (.number (.num 0)) (SetProto_add (.number .negZero) S).2).2 =
        .normal (.number (.num 1))) := by
  have hadd := setProto_add_eval S entries (.number .negZero) h
  have hcanon : canonicalizeForSet (.number .negZero) = .number (.num 0) := by decide
  rw [hcanon] at hadd
  by_cases hs : entries.any (slotMatches (.number .negZero)) = true
  · rw [if_pos hs] at hadd
    rw [hadd]
    have hzero : entries.any (slotMatches (.number (.num 0))) = true := by
      rw [List.any_eq_true] at hs ⊢
      obtain ⟨slot, hmem, hm⟩ := hs
      refine ⟨slot, hmem, ?_⟩
      cases slot with
      | some x => simpa [slotMatches, svz_negZero_eq_posZero x] using hm
      | none => simp [slotMatches] at hm
    refine ⟨rfl, Or.inl h, ?_, ?_⟩
    · rw [setProto_has_eval S entries (.number (.num 0)) h, hzero]
    · intro he
      subst he
      simp at hs
  · rw [if_neg hs] at hadd
    rw [hadd]
    have hmem : ((entries ++ [some (JSValue.number (JSNum.num 0))]).any (slotMatches (JSValue.number (JSNum.num 0)))) = true := by
      rw [List.any_eq_true]
      refine ⟨some (JSValue.number (JSNum.num 0)), by simp, ?_⟩
      simp [slotMatches, svz_refl]
    refine ⟨rfl, Or.inr rfl, ?_, ?_⟩
    · rw [setProto_has_eval _ (entries ++ [some (JSValue.number (JSNum.num 0))]) (JSValue.number (JSNum.num 0)) rfl, hmem]
    · intro he
      subst he
      show SetProto_sizeGetter
        (SetProto_add (JSValue.number (JSNum.num 0))
          ⟨S.val, some [some (JSValue.number (JSNum.num 0))]⟩).2 =
        Completion.normal (JSValue.number (JSNum.num 1))
      rw [setProto_add_eval ⟨S.val, some [some (JSValue.number (JSNum.num 0))]⟩
        [some (JSValue.number (JSNum.num 0))] (JSValue.number (JSNum.num 0)) rfl]
      have hcond : ([some (JSValue.number (JSNum.num 0))] : SetStorage).any
          (slotMatches (JSValue.number (JSNum.num 0))) = true := by decide
      rw [if_pos hcond]
      show SetProto_sizeGetter ⟨S.val, some [some (JSValue.number (JSNum.num 0))]⟩ =
        Completion.normal (JSValue.number (JSNum.num 1))
      rw [setProto_size_eval ⟨S.val, some [some (JSValue.number (JSNum.num 0))]⟩
        [some (JSValue.number (JSNum.num 0))] rfl]
      norm_num

theorem distinctLive_append (entries : SetStorage) (v : JSValue)
    (hd : DistinctLive entries) (hs : entries.any (slotMatches v) = false) :
    DistinctLive (entries ++ [some (canonicalizeForSet v)]) := by
  rw [DistinctLive, List.pairwise_append]
  refine ⟨hd, List.pairwise_singleton _ _, ?_⟩
  intro a ha b hb
  rw [List.mem_singleton] at hb
  subst hb
  intro x y hax hby
  injection hby with hy
  subst hy
  rw [svz_canon]
  rw [List.any_eq_false] at hs
  have hfa := hs a ha
  rw [hax] at hfa
  simpa [slotMatches] using hfa

theorem deleteLoop_mem (v : JSValue) : ∀ (s e2 : SetStorage) (b : Option JSValue),
    deleteLoop v s = some e2 → b ∈ e2 → b ∈ s ∨ b = none := by
  intro s
  induction s with
  | nil => intro e2 b h; simp [deleteLoop] at h
  | cons e rest ih =>
    intro e2 b h hb
    rw [deleteLoop] at h
    by_cases hm : slotMatches v e = true
    · rw [if_pos hm] at h
      injection h with h2
      subst h2
      rcases List.mem_cons.mp hb with hb | hb
      · right; exact hb
      · left; exact List.mem_cons_of_mem e hb
    · rw [if_neg hm] at h
      cases hdl : deleteLoop v rest with
      | none => rw [hdl] at h; simp at h
      | some r2 =>
        rw [hdl] at h
        have h3 : some (e :: r2) = e2 := h
        injection h3 with h2
        subst h2
        rcases List.mem_cons.mp hb with hb | hb
        · left; rw [hb]; exact List.mem_cons_self e rest
        · rcases ih r2 b hdl hb with hr | hr
          · left; exact List.mem_cons_of_mem e hr
          · right; exact hr

theorem distinctLive_deleteLoop (v : JSValue) : ∀ (s e2 : SetStorage),
    deleteLoop v s = some e2 → DistinctLive s → DistinctLive e2 := by
  intro s
  induction s with
  | nil => intro e2 h; simp [deleteLoop] at h
  | cons e rest ih =>
    intro e2 h hd
    rw [DistinctLive, List.pairwise_cons] at hd
    rw [deleteLoop] at h
    by_cases hm : slotMatches v e = true
    · rw [if_pos hm] at h
      injection h with h2
      subst h2
      rw [DistinctLive, List.pairwise_cons]
      exact ⟨fun b hb x y hx hy => Option.noConfusion hx, hd.2⟩
    · rw [if_neg hm] at h
      cases hdl : deleteLoop v rest with
      | none => rw [hdl] at h; simp at h
      | some r2 =>
        rw [hdl] at h
        have h3 : some (e :: r2) = e2 := h
        injection h3 with h2
        subst h2
        rw [DistinctLive, List.pairwise_cons]
        refine ⟨?_, ih r2 hdl hd.2⟩
        intro b hb
        rcases deleteLoop_mem v rest r2 b hdl hb with hr | hr
        · exact hd.1 b hr
        · subst hr
          intro x y hx hy
          cases hy

theorem distinctLive_clear (entries : SetStorage) : DistinctLive (entries.map fun _ => none) := by
  induction entries with
  | nil => exact List.Pairwise.nil
  | cons e rest ih =>
    rw [List.map_cons, DistinctLive, List.pairwise_cons]
    exact ⟨fun b hb x y hx hy => Option.noConfusion hx, ih⟩

theorem deleteLoop_found (v : JSValue) (pre : SetStorage) (x : Option JSValue) (post : SetStorage)
    (hpre : ∀ y ∈ pre, slotMatches v y = false) (hx : slotMatches v x = true) :
    deleteLoop v (pre ++ x :: post) = some (pre ++ none :: post) := by
  induction pre with
  | nil => simp [deleteLoop, hx]
  | cons p rest ih =>
    have hp : slotMatches v p = false := hpre p (List.mem_cons_self p rest)
    have ih2 := ih fun y hy => hpre y (List.mem_cons_of_mem p hy)
    simp [deleteLoop, hp, ih2]

theorem deleteLoop_none (v : JSValue) (entries : SetStorage)
    (hall : ∀ y ∈ entries, slotMatches v y = false) :
    deleteLoop v entries = none := by
  induction entries with
  | nil => rfl
  | cons p rest ih =>
    have hp : slotMatches v p = false := hall p (List.mem_cons_self p rest)
    have ih2 := ih fun y hy => hall y (List.mem_cons_of_mem p hy)
    simp [deleteLoop, hp, ih2]

theorem setProto_delete_eval (S : SReceiver) (entries : SetStorage) (v : JSValue) (h : S.setData = some entries) :
    SetProto_delete v S =
      (match deleteLoop v entries with
       | some entries2 => (.normal (.bool true), { S with setData := some entries2 })
       | none => (.normal (.bool false), S)) := by
  rw [SetProto_delete, requireSlot_some S entries h]

/-- C4: delete replaces the first storage slot whose element is
SameValueZero-equal to the argument with a hole and returns true, with the
storage list's length unchanged; when no slot matches it returns false
and the storage is untouched; and after add(1); add(2); delete(1),
forEach visits only the number 2. -/
theorem setProto_delete_first_match (S : SReceiver) (entries : SetStorage) (v : JSValue) (h : S.setData = some entries) :
    (∀ pre x post, entries = pre ++ x :: post →
      (∀ y ∈ pre, slotMatches v y = false) → slotMatches v x = true →
      SetProto_delete v S = (.normal (.bool true), { S with setData := some (pre ++ none :: post) }) ∧
      (pre ++ none :: post).length = entries.length) ∧
    ((∀ y ∈ entries, slotMatches v y = false) →
      SetProto_delete v S = (.normal (.bool false), S)) ∧
    SetProto_forEach (.callable noopCallback) c4Chain 3 =
      some (.normal .undef, c4Chain,
        [⟨1, .number (.num 2), [none, some (.number (.num 2))], .normal .undef⟩]) := by
  refine ⟨?_, ?_, by decide⟩
  · intro pre x post hsplit hpre hx
    rw [setProto_delete_eval S entries v h, hsplit, deleteLoop_found v pre x post hpre hx]
    exact ⟨rfl, by simp [hsplit]⟩
  · intro hall
    rw [setProto_delete_eval S entries v h, deleteLoop_none v entries hall]

theorem setProto_delete_first_match_witness :
    (⟨.obj 0, some [some (.number (.num 1)), some (.number (.num 2))]⟩ : SReceiver).setData =
      some [some (.number (.num 1)), some (.number (.num 2))] ∧
    SetProto_delete (.number (.num 1)) ⟨.obj 0, some [some (.number (.num 1)), some (.number (.num 2))]⟩ =
      (.normal (.bool true), ⟨.obj 0, some [none, some (.number (.num 2))]⟩) := by
  have h := (setProto_delete_first_match
    ⟨.obj 0, some [some (.number (.num 1)), some (.number (.num 2))]⟩
    [some (.number (.num 1)), some (.number (.num 2))] (.number (.num 1)) rfl).1
    [] (some (.number (.num 1))) [some (.number (.num 2))] rfl (by simp) (by decide)
  exact ⟨rfl, h.1⟩

theorem set_negZero_canonicalization_witness :
    (⟨.obj 0, some []⟩ : SReceiver).setData = some [] ∧
    SetProto_has (.number (.num 0)) (SetProto_add (.number .negZero) ⟨.obj 0, some []⟩).2 =
      .normal (.bool true) ∧
    SetProto_sizeGetter
      (SetProto_add (.number (.num 0)) (SetProto_add (.number .negZero) ⟨.obj 0, some []⟩).2).2 =
      .normal (.number (.num 1)) := by
  have h := set_negZero_canonicalization ⟨.obj 0, some []⟩ [] rfl
  exact ⟨rfl, h.2.2.1, h.2.2.2 rfl⟩

/-- C5: add scans for an existing SameValueZero match before appending and
returns the receiver unchanged when one exists; consequently add is
idempotent (the second add of the same value leaves the receiver fixed and
returns it), and every Set storage reachable through the API from a fresh
Set holds no two SameValueZero-equal non-hole slots. -/
theorem setProto_add_no_duplicates :
    (∀ (S : SReceiver) (entries : SetStorage) (v : JSValue), S.setData = some entries →
      entries.any (slotMatches v) = true → SetProto_add v S = (.normal S.val, S)) ∧
    (∀ (S : SReceiver) (entries : SetStorage) (v : JSValue), S.setData = some entries →
      SetProto_add v (SetProto_add v S).2 = (.normal S.val, (SetProto_add v S).2)) ∧
    (∀ s, ReachableStorage s → DistinctLive s) := by
  refine ⟨?_, ?_, ?_⟩
  · intro S entries v h hs
    rw [setProto_add_eval S entries v h, if_pos hs]
  · intro S entries v h
    have hadd := setProto_add_eval S entries v h
    by_cases hs : entries.any (slotMatches v) = true
    · rw [if_pos hs] at hadd
      rw [hadd]
      show SetProto_add v S = (.normal S.val, S)
      rw [hadd]
    · rw [if_neg hs] at hadd
      rw [hadd]
      show SetProto_add v { S with setData := some (entries ++ [some (canonicalizeForSet v)]) } =
        (.normal S.val, { S with setData := some (entries ++ [some (canonicalizeForSet v)]) })
      rw [setProto_add_eval _ (entries ++ [some (canonicalizeForSet v)]) v rfl]
      have hc : (entries ++ [some (canonicalizeForSet v)]).any (slotMatches v) = true := by
        rw [List.any_append]
        have : ([some (canonicalizeForSet v)] : SetStorage).any (slotMatches v) = true := by
          simp [slotMatches, svz_canon_self]
        rw [this, Bool.or_true]
      rw [if_pos hc]
  · intro s hr
    induction hr with
    | empty => exact List.Pairwise.nil
    | step s s2 hr hstep ih =>
      cases hstep with
      | add v _ _ heq =>
        rw [setProto_add_eval ⟨.undef, some s⟩ s v rfl] at heq
        by_cases hs : s.any (slotMatches v) = true
        · rw [if_pos hs] at heq
          have h2 : some s = some s2 := heq
          injection h2 with h3
          rw [← h3]
          exact ih
        · rw [if_neg hs] at heq
          have h2 : some (s ++ [some (canonicalizeForSet v)]) = some s2 := heq
          injection h2 with h3
          rw [← h3]
          exact distinctLive_append s v ih (Bool.eq_false_iff.mpr hs)
      | del v _ _ heq =>
        rw [setProto_delete_eval ⟨.undef, some s⟩ s v rfl] at heq
        cases hdl : deleteLoop v s with
        | some e2 =>
          rw [hdl] at heq
          have h2 : some e2 = some s2 := heq
          injection h2 with h3
          rw [← h3]
          exact distinctLive_deleteLoop v s e2 hdl ih
        | none =>
          rw [hdl] at heq
          have h2 : some s = some s2 := heq
          injection h2 with h3
          rw [← h3]
          exact ih
      | clr _ _ heq =>
        rw [SetProto_clear, requireSlot_some ⟨.undef, some s⟩ s rfl] at heq
        have h2 : some (s.map fun _ => none) = some s2 := heq
        injection h2 with h3
        rw [← h3]
        exact distinctLive_clear s

theorem setProto_add_no_duplicates_witness :
    (⟨.obj 0, some []⟩ : SReceiver).setData = some [] ∧
    SetProto_add (.number (.num 1))
        (SetProto_add (.number (.num 1)) ⟨.obj 0, some []⟩).2 =
      (.normal (.obj 0), (SetProto_add (.number (.num 1)) ⟨.obj 0, some []⟩).2) :=
  ⟨rfl, setProto_add_no_duplicates.2.1 ⟨.obj 0, some []⟩ [] (.number (.num 1)) rfl⟩

theorem forEachLoop_abrupt_last (f : Callback) : ∀ (fuel i : ℕ) (entries : SetStorage)
    (c : Completion JSValue) (s : SetStorage) (vis pre post : List ForEachVisit) (v : ForEachVisit),
    forEachLoop f fuel i entries = some (c, s, vis) →
    vis = pre ++ v :: post →
    v.res.isAbrupt = true →
    c = v.res ∧ post = [] := by
  intro fuel
  induction fuel with
  | zero =>
    intro i entries c s vis pre post v hrun
    simp [forEachLoop] at hrun
  | succ fuel ih =>
    intro i entries c s vis pre post v hrun hsplit habrupt
    rw [forEachLoop] at hrun
    split at hrun
    · split at hrun
      · exact ih (i + 1) entries c s vis pre post v hrun hsplit habrupt
      · rename_i h e hget
        split at hrun
        · rename_i v0 entries2 hcall
          split at hrun
          · rename_i c1 s1 vis1 heq3
            injection hrun with h3
            injection h3 with hA h4
            injection h4 with hB hC
            cases pre with
            | nil =>
              rw [← hC] at hsplit
              injection hsplit with hD hE
              rw [← hD] at habrupt
              simp [Completion.isAbrupt] at habrupt
            | cons p pre2 =>
              rw [← hC] at hsplit
              injection hsplit with hD hE
              rw [← hA]
              exact ih (i + 1) entries2 c1 s1 vis1 pre2 post v heq3 hE habrupt
          · exact absurd hrun (by simp)
        · rename_i c0 entries2 hcall hnotnormal
          injection hrun with h3
          injection h3 with hA h4
          injection h4 with hB hC
          cases pre with
          | nil =>
            rw [← hC] at hsplit
            injection hsplit with hD hE
            exact ⟨by rw [← hA, ← hD], hE.symm⟩
          | cons p pre2 =>
            rw [← hC] at hsplit
            injection hsplit with hD hE
            exact absurd hE.symm (by simp)
    · injection hrun with h3
      injection h3 with hA h4
      injection h4 with hB hC
      rw [← hC] at hsplit
      exact absurd hsplit.symm (by simp)

theorem setProto_forEach_eval (S : SReceiver) (entries : SetStorage) (f : Callback) (fuel : ℕ)
    (h : S.setData = some entries) :
    SetProto_forEach (.callable f) S fuel =
      (match forEachLoop f fuel 0 entries with
       | some (c, s, vis) => some (c, { S with setData := some s }, vis)
       | none => none) := by
  rw [SetProto_forEach, requireSlot_some S entries h]

/-- C1: when a callback invocation made by Set.prototype.forEach returns an
abrupt completion, forEach immediately returns that exact completion (same
variant, same payload) and performs no further callback invocations: any
abrupt invocation in the trace is the last entry, and the overall result is
its completion, verbatim. -/
theorem forEach_abrupt_propagation (S : SReceiver) (entries : SetStorage) (f : Callback) (fuel : ℕ)
    (c : Completion JSValue) (S2 : SReceiver) (vis pre post : List ForEachVisit) (v : ForEachVisit)
    (h : S.setData = some entries)
    (hrun : SetProto_forEach (.callable f) S fuel = some (c, S2, vis))
    (hsplit : vis = pre ++ v :: post)
    (habrupt : v.res.isAbrupt = true) :
    c = v.res ∧ post = [] := by
  rw [setProto_forEach_eval S entries f fuel h] at hrun
  cases hloop : forEachLoop f fuel 0 entries with
  | none =>
    rw [hloop] at hrun
    exact absurd hrun (by simp)
  | some r =>
    obtain ⟨c0, s0, vis0⟩ := r
    rw [hloop] at hrun
    have h2 : (some (c0, { S with setData := some s0 }, vis0) :
        Option (Completion JSValue × SReceiver × List ForEachVisit)) = some (c, S2, vis) := hrun
    injection h2 with h3
    injection h3 with hA h4
    injection h4 with hB hC
    rw [← hA]
    exact forEachLoop_abrupt_last f fuel 0 entries c0 s0 vis0 pre post v hloop (by rw [hC, hsplit]) habrupt

theorem forEach_abrupt_propagation_witness :
    (⟨.obj 0, some [some (.number (.num 1)), some (.number (.num 7))]⟩ : SReceiver).setData =
      some [some (.number (.num 1)), some (.number (.num 7))] ∧
    (Completion.thrown (.val (.str "boom")) : Completion JSValue) = .thrown (.val (.str "boom")) ∧
    ([] : List ForEachVisit) = [] := by
  have hrun : SetProto_forEach (.callable fun _ s => (.thrown (.val (.str "boom")), s))
      ⟨.obj 0, some [some (.number (.num 1)), some (.number (.num 7))]⟩ 3 =
      some (.thrown (.val (.str "boom")),
        ⟨.obj 0, some [some (.number (.num 1)), some (.number (.num 7))]⟩,
        [⟨0, .number (.num 1), [some (.number (.num 1)), some (.number (.num 7))],
          .thrown (.val (.str "boom"))⟩]) := by decide
  have h := forEach_abrupt_propagation
    ⟨.obj 0, some [some (.number (.num 1)), some (.number (.num 7))]⟩
    [some (.number (.num 1)), some (.number (.num 7))]
    (fun _ s => (.thrown (.val (.str "boom")), s)) 3
    (.thrown (.val (.str "boom")))
    ⟨.obj 0, some [some (.number (.num 1)), some (.number (.num 7))]⟩
    [⟨0, .number (.num 1), [some (.number (.num 1)), some (.number (.num 7))],
      .thrown (.val (.str "boom"))⟩]
    [] []
    ⟨0, .number (.num 1), [some (.number (.num 1)), some (.number (.num 7))],
      .thrown (.val (.str "boom"))⟩
    rfl hrun rfl rfl
  exact ⟨rfl, by rw [h.1], h.2⟩

theorem forEachLoop_done (f : Callback) (fuel i : ℕ) (entries : SetStorage) (h : ¬ i < entries.length) :
    forEachLoop f (fuel + 1) i entries = some (.normal .undef, entries, []) := by
  rw [forEachLoop, dif_neg h]

theorem forEachLoop_hole (f : Callback) (fuel i : ℕ) (entries : SetStorage) (h : i < entries.length)
    (hget : entries.get ⟨i, h⟩ = none) :
    forEachLoop f (fuel + 1) i entries = forEachLoop f fuel (i + 1) entries := by
  rw [forEachLoop, dif_pos h]
  simp only [hget]

theorem forEachLoop_live_normal (f : Callback) (fuel i : ℕ) (entries : SetStorage) (e : JSValue)
    (v0 : JSValue) (entries2 : SetStorage) (h : i < entries.length)
    (hget : entries.get ⟨i, h⟩ = some e) (hcall : f e entries = (.normal v0, entries2)) :
    forEachLoop f (fuel + 1) i entries =
      (match forEachLoop f fuel (i + 1) entries2 with
       | some (c, s, vis) => some (c, s, ⟨i, e, entries, .normal v0⟩ :: vis)
       | none => none) := by
  rw [forEachLoop, dif_pos h]
  simp only [hget, hcall]

theorem forEachLoop_pure (f : Callback)
    (hf : ∀ e s, (f e s).2 = s ∧ (f e s).1.isAbrupt = false) :
    ∀ (fuel i : ℕ) (entries : SetStorage), entries.length - i < fuel →
    ∃ vis, forEachLoop f fuel i entries = some (.normal .undef, entries, vis) ∧
      vis.map (fun x => x.elem) = (entries.drop i).filterMap id := by
  intro fuel
  induction fuel with
  | zero =>
    intro i entries hlt
    exact absurd hlt (by omega)
  | succ fuel ih =>
    intro i entries hlt
    by_cases h : i < entries.length
    · have hdrop : entries.drop i = entries.get ⟨i, h⟩ :: entries.drop (i + 1) := by
        rw [List.drop_eq_getElem_cons h, List.get_eq_getElem]
      cases hget : entries.get ⟨i, h⟩ with
      | none =>
        obtain ⟨vis, hrun, hmap⟩ := ih (i + 1) entries (by omega)
        refine ⟨vis, ?_, ?_⟩
        · rw [forEachLoop_hole f fuel i entries h hget, hrun]
        · rw [hmap, hdrop, hget]
          simp
      | some e =>
        cases hcall : f e entries with
        | mk c0 entries2 =>
          have hfe := hf e entries
          rw [hcall] at hfe
          obtain ⟨hst, hab⟩ := hfe
          cases c0 with
          | normal v0 =>
            have hst2 : entries2 = entries := hst
            obtain ⟨vis, hrun, hmap⟩ := ih (i + 1) entries (by omega)
            refine ⟨⟨i, e, entries, .normal v0⟩ :: vis, ?_, ?_⟩
            · rw [forEachLoop_live_normal f fuel i entries e v0 entries2 h hget hcall, hst2, hrun]
            · rw [List.map_cons, hmap, hdrop, hget]
              simp
          | thrown e0 => simp [Completion.isAbrupt] at hab
          | ret v0 => simp [Completion.isAbrupt] at hab
          | brk l0 => simp [Completion.isAbrupt] at hab
          | cont l0 => simp [Completion.isAbrupt] at hab
    · refine ⟨[], forEachLoop_done f fuel i entries h, ?_⟩
      rw [List.drop_eq_nil_of_le (by omega)]
      simp

theorem forEachLoop_invariant (f : Callback) : ∀ (fuel i : ℕ) (entries : SetStorage)
    (c : Completion JSValue) (s : SetStorage) (vis : List ForEachVisit),
    forEachLoop f fuel i entries = some (c, s, vis) →
    List.Chain' (fun a b => a.idx < b.idx) vis ∧
    ∀ v ∈ vis, i ≤ v.idx ∧ v.stBefore[v.idx]? = some (some v.elem) := by
  intro fuel
  induction fuel with
  | zero =>
    intro i entries c s vis hrun
    simp [forEachLoop] at hrun
  | succ fuel ih =>
    intro i entries c s vis hrun
    rw [forEachLoop] at hrun
    split at hrun
    · split at hrun
      · obtain ⟨hch, hmem⟩ := ih (i + 1) entries c s vis hrun
        exact ⟨hch, fun v hv => ⟨le_trans (Nat.le_succ i) (hmem v hv).1, (hmem v hv).2⟩⟩
      · rename_i h x e hget
        split at hrun
        · rename_i v0 entries2 hcall
          split at hrun
          · rename_i c1 s1 vis1 heq3
            injection hrun with h3
            injection h3 with hA h4
            injection h4 with hB hC
            obtain ⟨hch, hmem⟩ := ih (i + 1) entries2 c1 s1 vis1 heq3
            rw [← hC]
            constructor
            · rw [List.chain'_cons']
              refine ⟨?_, hch⟩
              intro b hb
              have hbmem : b ∈ vis1 := List.mem_of_mem_head? hb
              have hble := (hmem b hbmem).1
              show i < b.idx
              omega
            · intro v hv
              rcases List.mem_cons.mp hv with hv | hv
              · subst hv
                refine ⟨le_refl i, ?_⟩
                show entries[i]? = some (some e)
                rw [List.getElem?_eq_getElem h]
                simpa using hget
              · have hm := hmem v hv
                exact ⟨le_trans (Nat.le_succ i) hm.1, hm.2⟩
          · exact absurd hrun (by simp)
        · rename_i c0 entries2 hcall hnn
          injection hrun with h3
          injection h3 with hA h4
          injection h4 with hB hC
          rw [← hC]
          constructor
          · exact List.chain'_singleton _
          · intro v hv
            rw [List.mem_singleton] at hv
            subst hv
            refine ⟨le_refl i, ?_⟩
            show entries[i]? = some (some e)
            rw [List.getElem?_eq_getElem h]
            simpa using hget
    · injection hrun with h3
      injection h3 with hA h4
      injection h4 with hB hC
      rw [← hC]
      exact ⟨List.chain'_nil, fun v hv => absurd hv (List.not_mem_nil v)⟩

/-- C3 counterexample: starting from storage `[1]` with a callback that
appends the number 2 while visiting 1, forEach also visits 2 — a slot at
index 1, at or beyond the storage length (1) recorded at loop start, and an
element appended by the callback during iteration.  The claim's "never
visits indices at or beyond the storage length recorded at loop start
(elements appended by the callback are not visited)" is false on the code:
JS `for..of` re-reads the live array length at every step. -/
theorem forEach_snapshot_counterexample :
    ¬ (∀ v ∈ c3Vis, v.idx < ((c3Receiver.setData.getD []).length)) ∧
    (.number (.num 2)) ∈ c3Vis.map (fun v => v.elem) ∧
    some (.number (.num 2)) ∉ c3Receiver.setData.getD [] ∧
    (c3Receiver.setData.getD []).length = 1 := by
  refine ⟨?_, by decide, by decide, by decide⟩
  intro hall
  have h1 : (⟨1, .number (.num 2), [some (.number (.num 1)), some (.number (.num 2))],
      .normal .undef⟩ : ForEachVisit) ∈ c3Vis := by decide
  have h2 := hall _ h1
  simp [c3Receiver] at h2

/-- C3 (amended): forEach visits non-hole slots in strictly increasing
index order, with each visited element read from the storage as it is at
the moment of the visit (so a slot emptied by the callback before being
reached is observed as a hole and skipped, and an emptied slot is never
revisited); the loop bound is the storage length re-read at each step, so
elements appended by the callback during iteration ARE visited; and when
the callback does not mutate the storage, the visits are exactly the
non-hole slots in storage order. -/
theorem forEach_live_iteration :
    (∀ (S : SReceiver) (entries : SetStorage) (f : Callback) (fuel : ℕ),
      S.setData = some entries →
      (∀ e s, (f e s).2 = s ∧ (f e s).1.isAbrupt = false) →
      entries.length < fuel →
      ∃ vis, SetProto_forEach (.callable f) S fuel = some (.normal .undef, S, vis) ∧
        vis.map (fun x => x.elem) = entries.filterMap id) ∧
    (∀ (S : SReceiver) (entries : SetStorage) (f : Callback) (fuel : ℕ)
      (c : Completion JSValue) (S2 : SReceiver) (vis : List ForEachVisit),
      S.setData = some entries →
      SetProto_forEach (.callable f) S fuel = some (c, S2, vis) →
      List.Chain' (fun a b => a.idx < b.idx) vis ∧
      ∀ v ∈ vis, v.stBefore[v.idx]? = some (some v.elem)) ∧
    c3Vis.map (fun v => v.elem) = [.number (.num 1), .number (.num 2)] := by
  refine ⟨?_, ?_, by decide⟩
  · intro S entries f fuel h hf hlt
    obtain ⟨vis, hrun, hmap⟩ := forEachLoop_pure f hf fuel 0 entries (by omega)
    refine ⟨vis, ?_, by simpa using hmap⟩
    rw [setProto_forEach_eval S entries f fuel h, hrun]
    have hS : { S with setData := some entries } = S := by
      obtain ⟨val, setData⟩ := S
      simp at h
      rw [h]
    show some (Completion.normal JSValue.undef, { S with setData := some entries }, vis) =
      some (Completion.normal JSValue.undef, S, vis)
    rw [hS]
  · intro S entries f fuel c S2 vis h hrun
    rw [setProto_forEach_eval S entries f fuel h] at hrun
    cases hloop : forEachLoop f fuel 0 entries with
    | none =>
      rw [hloop] at hrun
      exact absurd hrun (by simp)
    | some r =>
      obtain ⟨c0, s0, vis0⟩ := r
      rw [hloop] at hrun
      have h2 : (some (c0, { S with setData := some s0 }, vis0) :
          Option (Completion JSValue × SReceiver × List ForEachVisit)) = some (c, S2, vis) := hrun
      injection h2 with h3
      injection h3 with hA h4
      injection h4 with hB hC
      obtain ⟨hch, hmem⟩ := forEachLoop_invariant f fuel 0 entries c0 s0 vis0 hloop
      rw [← hC]
      exact ⟨hch, fun v hv => (hmem v hv).2⟩

theorem forEach_live_iteration_witness :
    ∃ vis, SetProto_forEach (.callable noopCallback)
        ⟨.obj 0, some [some (.number (.num 3)), none, some (.number (.num 4))]⟩ 4 =
      some (.normal .undef, ⟨.obj 0, some [some (.number (.num 3)), none, some (.number (.num 4))]⟩, vis) ∧
      vis.map (fun x => x.elem) =
        ([some (.number (.num 3)), none, some (.number (.num 4))] : SetStorage).filterMap id :=
  forEach_live_iteration.1 ⟨.obj 0, some [some (.number (.num 3)), none, some (.number (.num 4))]⟩
    [some (.number (.num 3)), none, some (.number (.num 4))] noopCallback 4 rfl
    (fun e s => ⟨rfl, rfl⟩) (by decide)

/-- C8: the Proxy trap-invariant violations each have a distinct,
stably-identified message constructor (no two violation kinds share one);
every violation message names the violated trap, and every violation
concerning a specific property also carries that property key in its
message. -/
theorem proxy_violation_messages :
    ((allProxyViolationKinds.map templateName).Nodup ∧
      ∀ k : ProxyViolationKind, k ∈ allProxyViolationKinds) ∧
    (∀ (k : ProxyViolationKind) (p : String), strIncl (proxyViolationMessage k p) (trapOf k)) ∧
    (∀ (k : ProxyViolationKind) (p : String), concernsProperty k = true →
      strIncl (proxyViolationMessage k p) p) := by
  refine ⟨⟨by decide, fun k => by cases k <;> decide⟩, ?_, ?_⟩
  · intro k p
    refine ⟨("\x27" : String).data,
      (afterTrapOf k ++ (if hasArgOf k then p ++ afterArgOf k else "")).data, ?_⟩
    simp [proxyViolationMessage, String.data_append, List.append_assoc]
  · intro k p hk
    have ha : hasArgOf k = true := by
      revert hk
      cases k <;> decide
    refine ⟨("\x27" ++ (trapOf k ++ afterTrapOf k)).data, (afterArgOf k).data, ?_⟩
    simp [proxyViolationMessage, ha, String.data_append, List.append_assoc]

theorem proxy_violation_messages_witness :
    concernsProperty ProxyViolationKind.ProxyOwnKeysMissing = true ∧
    strIncl (proxyViolationMessage ProxyViolationKind.ProxyOwnKeysMissing ("a")) ("a") :=
  ⟨rfl, proxy_violation_messages.2.2 ProxyViolationKind.ProxyOwnKeysMissing ("a") rfl⟩

theorem tdo_obj (f : OptLookup) :
    ToDateTimeOptions (.obj f) "any" "date" =
      .normal (fun n => if needDefaultsRaw f && dateDefaultProps.contains n then numericRaw else f n) := by
  rw [ToDateTimeOptions]
  show Completion.normal _ = _
  congr 1
  funext n
  simp only [show (("any" == "date") : Bool) = false from rfl,
    show (("any" == "any") : Bool) = true from rfl,
    show (("any" == "time") : Bool) = false from rfl,
    show (("date" == "date") : Bool) = true from rfl,
    show (("date" == "time") : Bool) = false from rfl,
    show (("date" == "all") : Bool) = false from rfl,
    Bool.false_or, Bool.or_false, Bool.true_or, Bool.or_true,
    Bool.and_true, Bool.and_false, Bool.false_and,
    if_true, if_false, ite_true, ite_false, needDefaultsRaw]
  simp

theorem tdo_undef :
    ToDateTimeOptions (.undef) "any" "date" =
      ToDateTimeOptions (.obj fun _ => undefRaw) "any" "date" := rfl

theorem getOptionString_isSome (v : RawVal) (name : String) (allowed : Option (List String))
    (r : Option String) (h : GetOptionString v name allowed (.val none) = .normal r) :
    r.isSome = !v.isUndef := by
  rw [GetOptionString] at h
  by_cases hu : v.isUndef = true
  · rw [if_pos hu] at h
    have h2 : (Completion.normal (none : Option String) : Completion (Option String)) = .normal r := h
    injection h2 with h3
    rw [← h3, hu]
    rfl
  · rw [if_neg hu] at h
    rw [Bool.not_eq_true] at hu
    rw [hu]
    split at h
    · split at h
      · split at h
        · injection h with h3
          rw [← h3]
          rfl
        · exact absurd h (by simp)
      · injection h with h3
        rw [← h3]
        rfl
    · exact absurd h (by simp)
    · exact absurd h (by simp)
    · exact absurd h (by simp)
    · exact absurd h (by simp)

theorem getNumberOption_isSome (v : RawVal) (name : String) (mn mx : ℚ)
    (r : Option ℤ) (h : GetNumberOption v name mn mx = .normal r) :
    r.isSome = !v.isUndef := by
  rw [GetNumberOption] at h
  by_cases hu : v.isUndef = true
  · rw [if_pos hu] at h
    have h2 : (Completion.normal (none : Option ℤ) : Completion (Option ℤ)) = .normal r := h
    injection h2 with h3
    rw [← h3, hu]
    rfl
  · rw [if_neg hu] at h
    rw [Bool.not_eq_true] at hu
    rw [hu]
    split at h
    · split at h
      · exact absurd h (by simp)
      · split at h
        · exact absurd h (by simp)
        · injection h with h3
          rw [← h3]
          rfl
    · exact absurd h (by simp)
    · exact absurd h (by simp)
    · exact absurd h (by simp)
    · exact absurd h (by simp)

theorem Completion.bind_normal {α β : Type} (a : α) (k : α → Completion β) :
    (Completion.normal a).bind k = k a := rfl

theorem Completion.bind_thrown {α β : Type} (e : ThrowPayload) (k : α → Completion β) :
    (Completion.thrown e).bind k = .thrown e := rfl

theorem Completion.bind_ret {α β : Type} (v : JSValue) (k : α → Completion β) :
    (Completion.ret v).bind k = .ret v := rfl

theorem Completion.bind_brk {α β : Type} (l : Option String) (k : α → Completion β) :
    (Completion.brk l).bind k = .brk l := rfl

theorem Completion.bind_cont {α β : Type} (l : Option String) (k : α → Completion β) :
    (Completion.cont l).bind k = .cont l := rfl

theorem bind_normal_inv {α β : Type} (c : Completion α) (k : α → Completion β) (r : β)
    (h : c.bind k = .normal r) : ∃ a, c = .normal a ∧ k a = .normal r := by
  cases c with
  | normal a => exact ⟨a, rfl, h⟩
  | thrown e => exact absurd h (by simp [Completion.bind])
  | ret v => exact absurd h (by simp [Completion.bind])
  | brk l => exact absurd h (by simp [Completion.bind])
  | cont l => exact absurd h (by simp [Completion.bind])

theorem dtfReadHostOptions_inv (rtz : String → Option String) (L : OptLookup)
    (ho : HostOptions) (he : Bool)
    (h : dtfReadHostOptions rtz L = .normal (ho, he)) :
    ho.weekday.isSome = !(L .weekday).isUndef ∧
    ho.year.isSome = !(L .year).isUndef ∧
    ho.month.isSome = !(L .month).isUndef ∧
    ho.day.isSome = !(L .day).isUndef ∧
    ho.dayPeriod.isSome = !(L .dayPeriod).isUndef ∧
    ho.hour.isSome = !(L .hour).isUndef ∧
    ho.minute.isSome = !(L .minute).isUndef ∧
    ho.second.isSome = !(L .second).isUndef ∧
    ho.fractionalSecondDigits.isSome = !(L .fractionalSecondDigits).isUndef ∧
    ho.dateStyle.isSome = !(L .dateStyle).isUndef ∧
    ho.timeStyle.isSome = !(L .timeStyle).isUndef := by
  rw [dtfReadHostOptions] at h
  obtain ⟨lm, hlm, h⟩ := bind_normal_inv _ _ _ h
  obtain ⟨cal, hcal, h⟩ := bind_normal_inv _ _ _ h
  obtain ⟨u1, hu1, h⟩ := bind_normal_inv _ _ _ h
  obtain ⟨ns, hns, h⟩ := bind_normal_inv _ _ _ h
  obtain ⟨u2, hu2, h⟩ := bind_normal_inv _ _ _ h
  obtain ⟨h12, hh12, h⟩ := bind_normal_inv _ _ _ h
  obtain ⟨hcy, hhcy, h⟩ := bind_normal_inv _ _ _ h
  obtain ⟨tz, htz, h⟩ := bind_normal_inv _ _ _ h
  obtain ⟨wd, hwd, h⟩ := bind_normal_inv _ _ _ h
  obtain ⟨er, her, h⟩ := bind_normal_inv _ _ _ h
  obtain ⟨yr, hyr, h⟩ := bind_normal_inv _ _ _ h
  obtain ⟨mo, hmo, h⟩ := bind_normal_inv _ _ _ h
  obtain ⟨dy, hdy, h⟩ := bind_normal_inv _ _ _ h
  obtain ⟨dp, hdp, h⟩ := bind_normal_inv _ _ _ h
  obtain ⟨hr, hhr, h⟩ := bind_normal_inv _ _ _ h
  obtain ⟨mi, hmi, h⟩ := bind_normal_inv _ _ _ h
  obtain ⟨sec, hsec, h⟩ := bind_normal_inv _ _ _ h
  obtain ⟨fsd, hfsd, h⟩ := bind_normal_inv _ _ _ h
  obtain ⟨tzn, htzn, h⟩ := bind_normal_inv _ _ _ h
  obtain ⟨fm, hfm, h⟩ := bind_normal_inv _ _ _ h
  obtain ⟨ds, hds, h⟩ := bind_normal_inv _ _ _ h
  obtain ⟨ts, hts, h⟩ := bind_normal_inv _ _ _ h
  injection h with h2
  injection h2 with h3 h4
  rw [← h3]
  exact ⟨getOptionString_isSome _ _ _ _ hwd, getOptionString_isSome _ _ _ _ hyr,
    getOptionString_isSome _ _ _ _ hmo, getOptionString_isSome _ _ _ _ hdy,
    getOptionString_isSome _ _ _ _ hdp, getOptionString_isSome _ _ _ _ hhr,
    getOptionString_isSome _ _ _ _ hmi, getOptionString_isSome _ _ _ _ hsec,
    getNumberOption_isSome _ _ _ _ _ hfsd, getOptionString_isSome _ _ _ _ hds,
    getOptionString_isSome _ _ _ _ hts⟩

theorem getOptionString_undef (v : RawVal) (name : String) (allowed : Option (List String))
    (d : Option String) (h : v.isUndef = true) :
    GetOptionString v name allowed (.val d) = .normal d := by
  rw [GetOptionString, if_pos h]

theorem getNumberOption_undef (v : RawVal) (name : String) (mn mx : ℚ) (h : v.isUndef = true) :
    GetNumberOption v name mn mx = .normal none := by
  rw [GetNumberOption, if_pos h]

theorem getOptionBoolean_eval (v : RawVal) :
    GetOptionBoolean v = .normal (if v.isUndef then none else some v.asBool) := by
  rw [GetOptionBoolean]
  by_cases h : v.isUndef = true
  · rw [if_pos h, if_pos h]
  · rw [if_neg h, if_neg h]

theorem dtf_pipeline_equiv_defaults (rtz : String → Option String) (base : OptLookup)
    (hnd : needDefaultsRaw base = true) :
    ((dtfReadHostOptions rtz
        (fun n => if needDefaultsRaw base && dateDefaultProps.contains n then numericRaw else base n)).bind
      fun r => dtfWrappedFinal r.1 r.2) =
    ((dtfReadHostOptions rtz base).bind fun r => dtfInlineFinal "any" "date" r.1 r.2) := by
  have hnd2 := hnd
  rw [needDefaultsRaw] at hnd2
  simp only [Bool.and_eq_true, Bool.not_eq_true'] at hnd2
  obtain ⟨⟨hany, hds⟩, hts⟩ := hnd2
  rw [List.any_eq_false] at hany
  have hwd : (base .weekday).isUndef = true := by
    have := hany .weekday (by simp [dateRequiredProps, timeRequiredProps])
    simpa using this
  have hyr : (base .year).isUndef = true := by
    have := hany .year (by simp [dateRequiredProps, timeRequiredProps])
    simpa using this
  have hmo : (base .month).isUndef = true := by
    have := hany .month (by simp [dateRequiredProps, timeRequiredProps])
    simpa using this
  have hdy : (base .day).isUndef = true := by
    have := hany .day (by simp [dateRequiredProps, timeRequiredProps])
    simpa using this
  have hdp : (base .dayPeriod).isUndef = true := by
    have := hany .dayPeriod (by simp [dateRequiredProps, timeRequiredProps])
    simpa using this
  have hhr : (base .hour).isUndef = true := by
    have := hany .hour (by simp [dateRequiredProps, timeRequiredProps])
    simpa using this
  have hmi : (base .minute).isUndef = true := by
    have := hany .minute (by simp [dateRequiredProps, timeRequiredProps])
    simpa using this
  have hsec : (base .second).isUndef = true := by
    have := hany .second (by simp [dateRequiredProps, timeRequiredProps])
    simpa using this
  have hfsd : (base .fractionalSecondDigits).isUndef = true := by
    have := hany .fractionalSecondDigits (by simp [dateRequiredProps, timeRequiredProps])
    simpa using this
  rw [dtfReadHostOptions, dtfReadHostOptions]
  simp only [hnd, Bool.true_and,
    show dateDefaultProps.contains OptName.localeMatcher = false from rfl,
    show dateDefaultProps.contains OptName.calendar = false from rfl,
    show dateDefaultProps.contains OptName.numberingSystem = false from rfl,
    show dateDefaultProps.contains OptName.hour12 = false from rfl,
    show dateDefaultProps.contains OptName.hourCycle = false from rfl,
    show dateDefaultProps.contains OptName.timeZone = false from rfl,
    show dateDefaultProps.contains OptName.weekday = false from rfl,
    show dateDefaultProps.contains OptName.era = false from rfl,
    show dateDefaultProps.contains OptName.year = true from rfl,
    show dateDefaultProps.contains OptName.month = true from rfl,
    show dateDefaultProps.contains OptName.day = true from rfl,
    show dateDefaultProps.contains OptName.dayPeriod = false from rfl,
    show dateDefaultProps.contains OptName.hour = false from rfl,
    show dateDefaultProps.contains OptName.minute = false from rfl,
    show dateDefaultProps.contains OptName.second = false from rfl,
    show dateDefaultProps.contains OptName.fractionalSecondDigits = false from rfl,
    show dateDefaultProps.contains OptName.timeZoneName = false from rfl,
    show dateDefaultProps.contains OptName.formatMatcher = false from rfl,
    show dateDefaultProps.contains OptName.dateStyle = false from rfl,
    show dateDefaultProps.contains OptName.timeStyle = false from rfl,
    Bool.false_eq_true, eq_self_iff_true,
    if_true, if_false, ite_true, ite_false]
  rw [getOptionString_undef _ _ _ _ hwd, getOptionString_undef _ _ _ _ hdp,
    getOptionString_undef _ _ _ _ hds, getOptionString_undef _ _ _ _ hts,
    getOptionString_undef _ _ _ _ hyr, getOptionString_undef _ _ _ _ hmo,
    getOptionString_undef _ _ _ _ hdy, getOptionString_undef _ _ _ _ hhr,
    getOptionString_undef _ _ _ _ hmi, getOptionString_undef _ _ _ _ hsec,
    getNumberOption_undef _ _ _ _ hfsd, getOptionBoolean_eval,
    show GetOptionString numericRaw "year" (some INTL_NUMERIC_OPTION_VALUES) (.val none) =
      .normal (some "numeric") from rfl,
    show GetOptionString numericRaw "month"
      (some (INTL_NUMERIC_OPTION_VALUES ++ INTL_TEXT_OPTION_VALUES)) (.val none) =
      .normal (some "numeric") from rfl,
    show GetOptionString numericRaw "day" (some INTL_NUMERIC_OPTION_VALUES) (.val none) =
      .normal (some "numeric") from rfl]
  simp only [Completion.bind_normal]
  cases h1 : GetOptionString (base .localeMatcher) "localeMatcher"
      (some LOCALE_MATCHER_OPTION_VALUES) (.val (some "best fit")) <;>
    simp only [Completion.bind_normal, Completion.bind_thrown,
      Completion.bind_ret, Completion.bind_brk, Completion.bind_cont]
  case normal lm =>
  cases h2 : GetOptionString (base .calendar) "calendar" none (.val none) <;>
    simp only [Completion.bind_normal, Completion.bind_thrown,
      Completion.bind_ret, Completion.bind_brk, Completion.bind_cont]
  case normal cal =>
  cases h3 : dtfCheckUTS35 cal <;> simp only [Completion.bind_normal,
    Completion.bind_thrown, Completion.bind_ret, Completion.bind_brk, Completion.bind_cont]
  case normal u1 =>
  cases h4 : GetOptionString (base .numberingSystem) "numberingSystem" none (.val none) <;>
    simp only [Completion.bind_normal, Completion.bind_thrown,
      Completion.bind_ret, Completion.bind_brk, Completion.bind_cont]
  case normal ns =>
  cases h5 : dtfCheckUTS35 ns <;> simp only [Completion.bind_normal,
    Completion.bind_thrown, Completion.bind_ret, Completion.bind_brk, Completion.bind_cont]
  case normal u2 =>
  cases h6 : GetOptionString (base .hourCycle) "hourCycle"
      (some HOUR_CYCLE_OPTION_VALUES) (.val none) <;>
    simp only [Completion.bind_normal, Completion.bind_thrown,
      Completion.bind_ret, Completion.bind_brk, Completion.bind_cont]
  case normal hcy =>
  cases h7 : dtfReadTimeZone rtz (base .timeZone) <;> simp only [Completion.bind_normal,
    Completion.bind_thrown, Completion.bind_ret, Completion.bind_brk, Completion.bind_cont]
  case normal tz =>
  cases h8 : GetOptionString (base .era) "era" (some INTL_TEXT_OPTION_VALUES) (.val none) <;>
    simp only [Completion.bind_normal, Completion.bind_thrown,
      Completion.bind_ret, Completion.bind_brk, Completion.bind_cont]
  case normal er =>
  cases h9 : GetOptionString (base .timeZoneName) "timeZoneName"
      (some TIMEZONE_NAME_OPTION_VALUES) (.val none) <;>
    simp only [Completion.bind_normal, Completion.bind_thrown,
      Completion.bind_ret, Completion.bind_brk, Completion.bind_cont]
  case normal tzn =>
  cases h10 : GetOptionString (base .formatMatcher) "formatMatcher"
      (some FORMAT_MATCHER_OPTION_VALUES) (.val (some "best fit")) <;>
    simp only [Completion.bind_normal, Completion.bind_thrown,
      Completion.bind_ret, Completion.bind_brk, Completion.bind_cont]
  case normal fm =>
  simp only [dtfWrappedFinal, dtfInlineFinal,
    show (("any" == "date") : Bool) = false from rfl,
    show (("any" == "any") : Bool) = true from rfl,
    show (("any" == "time") : Bool) = false from rfl,
    show (("date" == "date") : Bool) = true from rfl,
    show (("date" == "time") : Bool) = false from rfl,
    show (("date" == "all") : Bool) = false from rfl,
    Option.isSome_none, Option.isSome_some, Option.isNone_none,
    Bool.false_or, Bool.or_false, Bool.true_or, Bool.or_true,
    Bool.false_and, Bool.and_false, Bool.true_and, Bool.and_true,
    Bool.false_eq_true, eq_self_iff_true, if_true, if_false, ite_true, ite_false]

theorem dtf_final_equiv_nodefaults (rtz : String → Option String) (base : OptLookup)
    (ho : HostOptions) (he : Bool)
    (hnd : needDefaultsRaw base = false)
    (hread : dtfReadHostOptions rtz base = .normal (ho, he)) :
    sameKindOrEqual (dtfWrappedFinal ho he) (dtfInlineFinal "any" "date" ho he) := by
  obtain ⟨iwd, iyr, imo, idy, idp, ihr, imi, isec, ifsd, ids, its⟩ :=
    dtfReadHostOptions_inv rtz base ho he hread
  by_cases hbs : (ho.dateStyle.isSome || ho.timeStyle.isSome) = true
  · by_cases hhe : he = true
    · refine Or.inr ⟨"TypeError", "IncompatibleOptions",
        [.str "\"dateStyle\" and \"timeStyle\" prohibit field-specific formatting"],
        "IncompatibleOptions",
        [.str "\"dateStyle\" and \"timeStyle\" prohibit component-specific formatting"], ?_, ?_⟩
      · rw [dtfWrappedFinal]
        simp only [hbs, hhe, Bool.true_and, if_true, ite_true]
      · rw [dtfInlineFinal]
        simp only [hbs, hhe, if_true, ite_true]
    · left
      have hhef : he = false := Bool.eq_false_iff.mpr hhe
      rw [dtfWrappedFinal, dtfInlineFinal]
      simp only [hbs, hhef, Bool.and_false, if_false, ite_false, if_true, ite_true,
        show (("any" == "date") : Bool) = false from rfl,
        show (("any" == "time") : Bool) = false from rfl,
        Bool.false_and, Bool.false_eq_true]
  · have hbsf : (ho.dateStyle.isSome || ho.timeStyle.isSome) = false := Bool.eq_false_iff.mpr hbs
    obtain ⟨hdsf, htsf⟩ : ho.dateStyle.isSome = false ∧ ho.timeStyle.isSome = false := by
      simpa using hbsf
    have hbds : (base .dateStyle).isUndef = true := by
      rw [hdsf] at ids
      simpa using ids.symm
    have hbts : (base .timeStyle).isUndef = true := by
      rw [htsf] at its
      simpa using its.symm
    have hany : ((dateRequiredProps ++ timeRequiredProps).any fun p => !(base p).isUndef) = true := by
      by_contra hne
      have hf : ((dateRequiredProps ++ timeRequiredProps).any fun p => !(base p).isUndef) = false :=
        Bool.eq_false_iff.mpr hne
      rw [needDefaultsRaw, hbds, hbts, hf] at hnd
      simp at hnd
    rw [List.any_eq_true] at hany
    obtain ⟨p, hpmem, hp⟩ := hany
    simp only [dateRequiredProps, timeRequiredProps, List.mem_append, List.mem_cons,
      List.not_mem_nil, or_false] at hpmem
    left
    rw [dtfWrappedFinal, dtfInlineFinal]
    simp only [hbsf, Bool.false_and, if_false, ite_false, Bool.false_eq_true,
      show (("any" == "date" || "any" == "any") : Bool) = true from rfl,
      show (("any" == "time" || "any" == "any") : Bool) = true from rfl,
      if_true, ite_true]
    rcases hpmem with (rfl | rfl | rfl | rfl) | (rfl | rfl | rfl | rfl | rfl)
    · have hsome : ho.weekday.isSome = true := by rw [iwd]; simpa using hp
      have hnone : ho.weekday.isNone = false := by cases hcc : ho.weekday <;> simp_all
      simp [hnone]
    · have hsome : ho.year.isSome = true := by rw [iyr]; simpa using hp
      have hnone : ho.year.isNone = false := by cases hcc : ho.year <;> simp_all
      simp [hnone]
    · have hsome : ho.month.isSome = true := by rw [imo]; simpa using hp
      have hnone : ho.month.isNone = false := by cases hcc : ho.month <;> simp_all
      simp [hnone]
    · have hsome : ho.day.isSome = true := by rw [idy]; simpa using hp
      have hnone : ho.day.isNone = false := by cases hcc : ho.day <;> simp_all
      simp [hnone]
    · have hsome : ho.dayPeriod.isSome = true := by rw [idp]; simpa using hp
      have hnone : ho.dayPeriod.isNone = false := by cases hcc : ho.dayPeriod <;> simp_all
      simp [hnone]
    · have hsome : ho.hour.isSome = true := by rw [ihr]; simpa using hp
      have hnone : ho.hour.isNone = false := by cases hcc : ho.hour <;> simp_all
      simp [hnone]
    · have hsome : ho.minute.isSome = true := by rw [imi]; simpa using hp
      have hnone : ho.minute.isNone = false := by cases hcc : ho.minute <;> simp_all
      simp [hnone]
    · have hsome : ho.second.isSome = true := by rw [isec]; simpa using hp
      have hnone : ho.second.isNone = false := by cases hcc : ho.second <;> simp_all
      simp [hnone]
    · have hsome : ho.fractionalSecondDigits.isSome = true := by rw [ifsd]; simpa using hp
      have hnone : ho.fractionalSecondDigits.isNone = false := by
        cases hcc : ho.fractionalSecondDigits <;> simp_all
      simp [hnone]

theorem sameKindOrEqual_bind {α β : Type} (c1 c2 : Completion α) (k : α → Completion β)
    (h : sameKindOrEqual c1 c2) : sameKindOrEqual (c1.bind k) (c2.bind k) := by
  rcases h with rfl | ⟨kk, t1, a1, t2, a2, h1, h2⟩
  · left
    rfl
  · right
    exact ⟨kk, t1, a1, t2, a2, by rw [h1, Completion.bind_thrown],
      by rw [h2, Completion.bind_thrown]⟩

theorem Completion.map_thrown {α β : Type} (e : ThrowPayload) (g : α → β) :
    (Completion.thrown e : Completion α).map g = .thrown e := rfl

theorem sameKindOrEqual_map {α β : Type} (c1 c2 : Completion α) (g : α → β)
    (h : sameKindOrEqual c1 c2) : sameKindOrEqual (c1.map g) (c2.map g) := by
  rcases h with rfl | ⟨kk, t1, a1, t2, a2, h1, h2⟩
  · left
    rfl
  · right
    exact ⟨kk, t1, a1, t2, a2, by rw [h1, Completion.map_thrown],
      by rw [h2, Completion.map_thrown]⟩

theorem Completion.bind_map_comm {α β γ : Type} (c : Completion α) (k : α → Completion β) (g : β → γ) :
    (c.bind fun a => (k a).map g) = (c.bind k).map g := by
  cases c <;> rfl

/-- C9: with every consulted options property an ordinary data property (a
pure lookup) and the shared host services fixed, the wrapper-based
DTFConstructor and the inline CreateDateTimeFormat at required 'any',
defaults 'date' are equivalent: equal completions — in particular the same
host locales and host options reach the host constructor — except for the
one broad-style/explicit-components rejection, where both throw a
TypeError of the same kind (their message texts differ); composing either
pipeline with the host construction step preserves the equivalence. -/
theorem dtf_constructor_equivalence (o : DTFOracles) (optionsArg : OptionsArg) :
    sameKindOrEqual (DTFConstructor o optionsArg)
      (CreateDateTimeFormat o optionsArg "any" "date") ∧
    ∀ (hostConstruct : List String × HostOptions → HostResult ℕ),
      sameKindOrEqual
        ((DTFConstructor o optionsArg).bind fun args => dtfHostConstruct (hostConstruct args))
        ((CreateDateTimeFormat o optionsArg "any" "date").bind fun args =>
          dtfHostConstruct (hostConstruct args)) := by
  have hmain : sameKindOrEqual (DTFConstructor o optionsArg)
      (CreateDateTimeFormat o optionsArg "any" "date") := by
    rw [DTFConstructor, CreateDateTimeFormat]
    cases hci : o.createInstance with
    | normal u =>
      simp only [Completion.bind_normal]
      cases hcl : o.canonLocales with
      | normal locs =>
        simp only [Completion.bind_normal]
        cases optionsArg with
        | nullv =>
          left
          rfl
        | undef =>
          rw [tdo_undef, tdo_obj,
            show CoerceOptionsToObject .undef = .normal (fun _ => undefRaw) from rfl]
          simp only [Completion.bind_normal]
          rw [Completion.bind_map_comm, Completion.bind_map_comm]
          left
          rw [dtf_pipeline_equiv_defaults o.resolveTZ (fun _ => undefRaw) rfl]
        | obj f =>
          rw [tdo_obj, show CoerceOptionsToObject (.obj f) = .normal f from rfl]
          simp only [Completion.bind_normal]
          rw [Completion.bind_map_comm, Completion.bind_map_comm]
          by_cases hndf : needDefaultsRaw f = true
          · left
            rw [dtf_pipeline_equiv_defaults o.resolveTZ f hndf]
          · have hndf2 : needDefaultsRaw f = false := Bool.eq_false_iff.mpr hndf
            have hov : (fun n => if needDefaultsRaw f && dateDefaultProps.contains n
                then numericRaw else f n) = f := by
              funext n
              rw [hndf2]
              simp
            rw [hov]
            apply sameKindOrEqual_map
            cases hr : dtfReadHostOptions o.resolveTZ f with
            | normal r =>
              obtain ⟨ho, he⟩ := r
              simp only [Completion.bind_normal]
              exact dtf_final_equiv_nodefaults o.resolveTZ f ho he hndf2 hr
            | thrown e =>
              left
              simp only [Completion.bind_thrown]
            | ret v =>
              left
              simp only [Completion.bind_ret]
            | brk l =>
              left
              simp only [Completion.bind_brk]
            | cont l =>
              left
              simp only [Completion.bind_cont]
      | thrown e =>
        left
        simp only [Completion.bind_thrown]
      | ret v =>
        left
        simp only [Completion.bind_ret]
      | brk l =>
        left
        simp only [Completion.bind_brk]
      | cont l =>
        left
        simp only [Completion.bind_cont]
    | thrown e =>
      left
      simp only [Completion.bind_thrown]
    | ret v =>
      left
      simp only [Completion.bind_ret]
    | brk l =>
      left
      simp only [Completion.bind_brk]
    | cont l =>
      left
      simp only [Completion.bind_cont]
  exact ⟨hmain, fun hostConstruct => sameKindOrEqual_bind _ _ _ hmain⟩
